import Mathlib

/-!
Verification development for the content-management backend (FastAPI server).

The definitions below are a shallow embedding of the Python source under
`src/app/`: the database is explicit state (lists of rows), request handlers
are functions from state and request data to state and result, machine
integers are `Nat`/`Int`, and fallible code returns `Option`/`Except`.
Each section names the source file and function it embeds.
-/

namespace Server

/-! ### Decimal rendering and parsing

Embeds Python `str(int)` (used by `get_feed` for `next_cursor = str(posts[-1].id)`,
`src/app/routers/posts.py` line 177) and `int(str)` (used for cursor parsing,
line 72).  `decRepr` produces the decimal digit string of a natural number;
`pyInt` models `int(s)`: surrounding whitespace is stripped, an optional single
sign is allowed, and the digit run may contain single underscores between
digits (Python 3.6+); anything else fails. -/

/-- Decimal digit value of an ASCII digit character. -/
def digitVal (c : Char) : Nat := c.toNat - 48

/-- Little-endian decimal digit characters of `n`; the first argument is fuel
(always instantiated with more than `n`, see `decRepr`). -/
def decDigitsRev : Nat → Nat → List Char
  | 0, _ => []
  | f + 1, n =>
    if n < 10 then [Nat.digitChar n]
    else Nat.digitChar (n % 10) :: decDigitsRev f (n / 10)

/-- Decimal string of a natural number; embeds Python `str(n)` for `n ≥ 0`. -/
def decRepr (n : Nat) : String := ((decDigitsRev (n + 1) n).reverse).asString

/-- Characters stripped by Python `int()` around the digits. -/
def pyWhitespace (c : Char) : Bool :=
  c == ' ' || c == '\t' || c == '\n' || c == '\r' || c == '\x0b' || c == '\x0c'

/-- Digit-run parser after the first digit: single underscores are allowed
between digits (`"1_0"` parses, `"1__0"`, `"1_"` do not). `acc` is the value
of the digits consumed so far. -/
def parseDigitsCore : List Char → Nat → Option Nat
  | [], acc => some acc
  | [c], acc => if c.isDigit then some (acc * 10 + digitVal c) else none
  | c :: c2 :: rest, acc =>
    if c = '_' then
      if c2.isDigit then parseDigitsCore rest (acc * 10 + digitVal c2) else none
    else if c.isDigit then parseDigitsCore (c2 :: rest) (acc * 10 + digitVal c) else none

/-- Digit-run parser: the run must start with a digit (no leading underscore). -/
def parseDigitsStart : List Char → Option Nat
  | [] => none
  | c :: rest => if c.isDigit then parseDigitsCore rest (digitVal c) else none

/-- Optionally signed digit run. -/
def parseSignedDigits : List Char → Option Int
  | [] => none
  | c :: rest =>
    if c = '-' then (parseDigitsStart rest).map (fun n => -(n : Int))
    else if c = '+' then (parseDigitsStart rest).map (fun n => (n : Int))
    else (parseDigitsStart (c :: rest)).map (fun n => (n : Int))

/-- Strip `pyWhitespace` from both ends of a character list. -/
def stripWS (cs : List Char) : List Char :=
  ((cs.dropWhile pyWhitespace).reverse.dropWhile pyWhitespace).reverse

/-- Embeds Python `int(s)`: `some k` when `s` parses as the integer `k`,
`none` when `int(s)` raises `ValueError`. -/
def pyInt (s : String) : Option Int := parseSignedDigits (stripWS s.data)

/-- Value of a big-endian decimal digit character list. -/
def digitsVal (cs : List Char) : Nat :=
  cs.foldl (fun a c => a * 10 + digitVal c) 0

/-! ### Feed engine

Embeds `get_feed` from `src/app/routers/posts.py` (lines 30–186).  A `FeedPost`
is one row of the `posts` table together with the `status` of its one-to-one
`PostAttribute` row (`attrStatus = none` models a post without an attribute
row; the inner `join(PostAttribute)` drops such posts).  The query filters to
`status == "published"`, optionally applies the `ILIKE` search, optionally
applies `id < cursor` (the cursor string parsed by `int()`, invalid values
ignored), orders by `id` descending and takes `limit` rows. -/

/-- Row of `posts` (searchable columns only) joined with the `status` of its
`PostAttribute` row; `title` is `NOT NULL` in `src/app/models.py`, the other
text columns are nullable. -/
structure FeedPost where
  id : Nat
  title : String
  body : Option String
  caption : Option String
  description : Option String
  quote : Option String
  attrStatus : Option String
  deriving Repr, DecidableEq

/-- Python truthiness of an optional string (`None` and `""` are falsy). -/
def pyTruthyStr : Option String → Bool
  | none => false
  | some s => !(s == "")

/-- Embeds `column.ilike(f"%{term}%")`: case-insensitive substring match,
false on SQL NULL. -/
def ilikeContains (col : Option String) (term : String) : Bool :=
  match col with
  | none => false
  | some v => decide (List.IsInfix (term.data.map Char.toLower) (v.data.map Char.toLower))

/-- Search disjunction over title, body, caption, description and quote
(`get_feed` lines 59–67). -/
def matchesSearch (p : FeedPost) (term : String) : Bool :=
  ilikeContains (some p.title) term || ilikeContains p.body term ||
    ilikeContains p.caption term || ilikeContains p.description term ||
    ilikeContains p.quote term

/-- Cursor handling (`get_feed` lines 69–76): absent or empty cursors are
skipped, other strings go through `int()` and parse failures are ignored. -/
def effCursor : Option String → Option Int
  | none => none
  | some s =>
    if s == "" then none
    else
      match pyInt s with
      | some k => some k
      | none => none

/-- Predicate `Post.id < cursor_id` applied when a cursor value is present. -/
def cursorKeep (c : Option Int) (p : FeedPost) : Bool :=
  match c with
  | none => true
  | some k => decide ((p.id : Int) < k)

/-- Ordering used by `order_by(Post.id.desc())`: descending by id. -/
def feedGE (a b : FeedPost) : Prop := b.id ≤ a.id

instance : DecidableRel feedGE := fun a b => Nat.decLe b.id a.id

instance : IsTotal FeedPost feedGE :=
  ⟨fun a b => (Nat.le_total b.id a.id).imp (fun h => h) (fun h => h)⟩

instance : IsTrans FeedPost feedGE :=
  ⟨fun _ _ _ hab hbc => Nat.le_trans hbc hab⟩

/-- Rows produced by the feed query before `limit` is applied: status filter,
optional search filter, optional cursor filter, then `ORDER BY id DESC`. -/
def feedQueryRows (db : List FeedPost) (search : Option String)
    (cursor : Option String) : List FeedPost :=
  let base := db.filter (fun p => p.attrStatus == some "published")
  let searched :=
    if pyTruthyStr search then base.filter (fun p => matchesSearch p (search.getD ""))
    else base
  let cursored := searched.filter (cursorKeep (effCursor cursor))
  cursored.insertionSort feedGE

/-- Response of `get_feed`: the page, the pagination cursor and the
`hasMore` flag (`get_feed` lines 173–186). -/
structure FeedResponse where
  posts : List FeedPost
  nextCursor : Option String
  hasMore : Bool
  deriving Repr, DecidableEq

/-- Embeds the `GET /posts/feed` endpoint (content projection omitted; the
returned rows carry all fields the projection reads). -/
def get_feed (db : List FeedPost) (limit : Nat) (cursor : Option String)
    (search : Option String) : FeedResponse :=
  let posts := (feedQueryRows db search cursor).take limit
  let hasMore := decide (posts.length = limit)
  let nextCursor :=
    match posts.getLast? with
    | none => none
    | some p => if hasMore then some (decRepr p.id) else none
  ⟨posts, nextCursor, hasMore⟩

/-- Published rows of the database, in query (unsorted) order. -/
def publishedPosts (db : List FeedPost) : List FeedPost :=
  db.filter (fun p => p.attrStatus == some "published")

/-- Published rows sorted by id descending: the full feed. -/
def publishedDesc (db : List FeedPost) : List FeedPost :=
  (publishedPosts db).insertionSort feedGE

/-- Client loop: call `get_feed`, follow `nextCursor` while `hasMore`.  Fuel
bounds the recursion; `feedChain` supplies enough fuel for any database. -/
def feedChainAux (db : List FeedPost) (limit : Nat) : Nat → Option String → List FeedResponse
  | 0, c => [get_feed db limit c none]
  | f + 1, c =>
    if (get_feed db limit c none).hasMore then
      get_feed db limit c none ::
        feedChainAux db limit f (get_feed db limit c none).nextCursor
    else [get_feed db limit c none]

/-- All pages obtained by chaining `cursor := nextCursor` from the first call. -/
def feedChain (db : List FeedPost) (limit : Nat) : List FeedResponse :=
  feedChainAux db limit (db.length + 1) none

/-- Concatenation of all pages of the chain. -/
def feedChainPosts (db : List FeedPost) (limit : Nat) : List FeedPost :=
  ((feedChain db limit).map FeedResponse.posts).flatten

/-! Auxiliary facts about stable sorting used to reason about the feed query:
applying a row filter before sorting gives the same list as applying it after. -/

/-- Concrete database for the C2 witness: three published posts and a draft. -/
def feedDbW : List FeedPost :=
  [⟨1, "a", none, none, none, none, some "published"⟩,
   ⟨2, "b", none, none, none, none, some "published"⟩,
   ⟨3, "c", none, none, none, none, some "draft"⟩,
   ⟨4, "d", none, none, none, none, some "published"⟩]

/-! ### Likes

Embeds `toggle_like` from `src/app/crud/likes.py` (lines 9–48) and the
router `toggle_post_like` from `src/app/routers/posts.py` (lines 508–539).
The request body is validated against the effective `LikeCreate` schema
(`src/app/schemas.py` line 625, the later of the two definitions of that
name): `post_id`, `user_id` and `session_hash` are all required, so a body
without them is rejected with a 422 validation error before the handler
runs. -/

/-- Python-level exceptions surfaced by the embedded handlers. -/
inductive PyErr where
  | multipleResultsFound
  | attributeError
  | validationError
  deriving Repr, DecidableEq

deriving instance DecidableEq for Except

/-- Embeds SQLAlchemy `Result.scalar_one_or_none()`: none for zero rows, the
row when unique, `MultipleResultsFound` otherwise. -/
def scalarOneOrNone {α : Type} : List α → Except PyErr (Option α)
  | [] => Except.ok none
  | [x] => Except.ok (some x)
  | _ => Except.error PyErr.multipleResultsFound

/-- Row of the `likes` table (`src/app/models.py`). -/
structure LikeRow where
  id : Nat
  post_id : Int
  user_id : Int
  deriving Repr, DecidableEq

/-- State of the `likes` table together with the id sequence. -/
structure LikesDB where
  rows : List LikeRow
  nextId : Nat
  deriving Repr, DecidableEq

/-- Effective `LikeCreate` schema (`src/app/schemas.py` lines 619–626): all
three fields required. -/
structure LikeCreate where
  post_id : Int
  user_id : Int
  session_hash : String
  deriving Repr, DecidableEq

/-- Result dictionary returned by `toggle_like`. -/
structure LikeResult where
  liked : Bool
  like_count : Nat
  deriving Repr, DecidableEq

/-- Likes stored for a post (the `func.count` query filtered on `post_id`). -/
def likesForPost (db : LikesDB) (pid : Int) : List LikeRow :=
  db.rows.filter (fun r => r.post_id == pid)

/-- Embeds `toggle_like`: look up an existing like only when `user_id` is
truthy, delete it when found (returning `liked=False`) or insert a new row
(returning `liked=True`), then report the fresh like count of the post. -/
def toggle_like (db : LikesDB) (ld : LikeCreate) (ip : Option String) :
    LikesDB × Except PyErr LikeResult :=
  let found : Except PyErr (Option LikeRow) :=
    if ld.user_id ≠ 0 then
      scalarOneOrNone
        (db.rows.filter (fun r => r.post_id == ld.post_id && r.user_id == ld.user_id))
    else Except.ok none
  match found with
  | Except.error e => (db, Except.error e)
  | Except.ok existing =>
    let db1 : LikesDB :=
      match existing with
      | some row => { db with rows := db.rows.erase row }
      | none =>
        { rows := db.rows ++ [⟨db.nextId, ld.post_id, ld.user_id⟩],
          nextId := db.nextId + 1 }
    (db1, Except.ok ⟨existing.isNone, (likesForPost db1 ld.post_id).length⟩)

/-- Raw request body for `POST /posts/like` before schema validation. -/
structure RawLikeRequest where
  post_id : Option Int
  user_id : Option Int
  session_hash : Option String
  deriving Repr, DecidableEq

/-- Pydantic validation of the request body against `LikeCreate`. -/
def parseLikeCreate (raw : RawLikeRequest) : Except PyErr LikeCreate :=
  match raw.post_id, raw.user_id, raw.session_hash with
  | some p, some u, some s => Except.ok ⟨p, u, s⟩
  | _, _, _ => Except.error PyErr.validationError

/-- Embeds the `POST /posts/like` endpoint: validation, then `toggle_like`. -/
def toggle_post_like (db : LikesDB) (raw : RawLikeRequest) (ip : Option String) :
    LikesDB × Except PyErr LikeResult :=
  match parseLikeCreate raw with
  | Except.error e => (db, Except.error e)
  | Except.ok ld => toggle_like db ld ip

/-- Database state after `n` successive `toggle_like` calls. -/
def toggleLikeN (db : LikesDB) (ld : LikeCreate) : Nat → LikesDB
  | 0 => db
  | n + 1 => (toggle_like (toggleLikeN db ld n) ld none).1

/-! ### Views

Embeds `record_view` from `src/app/crud/views.py` (lines 9–54).  The lookup
key is `(post, user)` when `view_data.user_id` is truthy, else `(post, ip)`
when the extracted `ip_address` is truthy; a view row is inserted only when
no row for the key exists.  The effective `ViewCreate` schema
(`src/app/schemas.py` lines 636–642) has only `post_id` and `user_id`
(default `0`); the insert expression `ip_address or view_data.ip_address`
therefore raises `AttributeError` when the extracted ip is falsy, because the
schema has no `ip_address` field. -/

/-- Row of the `views` table (`src/app/models.py`). -/
structure ViewRow where
  id : Nat
  post_id : Int
  user_id : Option Int
  ip_address : Option String
  user_agent : Option String
  deriving Repr, DecidableEq

/-- State of the `views` table together with the id sequence. -/
structure ViewsDB where
  rows : List ViewRow
  nextId : Nat
  deriving Repr, DecidableEq

/-- Effective `ViewCreate` schema: `post_id` required, `user_id` optional
with default `0`. -/
structure ViewCreate where
  post_id : Int
  user_id : Option Int
  deriving Repr, DecidableEq

/-- Result dictionary returned by `record_view`. -/
structure ViewResult where
  view_count : Nat
  deriving Repr, DecidableEq

/-- Python truthiness of an optional integer (`None` and `0` are falsy). -/
def pyTruthyInt : Option Int → Bool
  | none => false
  | some k => !(k == 0)

/-- Views stored for a post (the `func.count` query filtered on `post_id`). -/
def viewsForPost (db : ViewsDB) (pid : Int) : List ViewRow :=
  db.rows.filter (fun r => r.post_id == pid)

/-- Identity key used by `record_view`: `(post, user)` for truthy user ids,
else `(post, ip)`. -/
def viewKeyPred (vd : ViewCreate) (ip : Option String) (r : ViewRow) : Bool :=
  if pyTruthyInt vd.user_id then
    r.post_id == vd.post_id && r.user_id == vd.user_id
  else r.post_id == vd.post_id && r.ip_address == ip

/-- Embeds `record_view`: look up by the identity key, insert only when
absent, return the fresh view count of the post. -/
def record_view (db : ViewsDB) (vd : ViewCreate) (ip : Option String)
    (ua : Option String) : ViewsDB × Except PyErr ViewResult :=
  let found : Except PyErr (Option ViewRow) :=
    if pyTruthyInt vd.user_id then
      scalarOneOrNone
        (db.rows.filter (fun r => r.post_id == vd.post_id && r.user_id == vd.user_id))
    else if pyTruthyStr ip then
      scalarOneOrNone
        (db.rows.filter (fun r => r.post_id == vd.post_id && r.ip_address == ip))
    else Except.ok none
  match found with
  | Except.error e => (db, Except.error e)
  | Except.ok (some _) => (db, Except.ok ⟨(viewsForPost db vd.post_id).length⟩)
  | Except.ok none =>
    if pyTruthyStr ip then
      let db1 : ViewsDB :=
        { rows := db.rows ++ [⟨db.nextId, vd.post_id, vd.user_id, ip, ua⟩],
          nextId := db.nextId + 1 }
      (db1, Except.ok ⟨(viewsForPost db1 vd.post_id).length⟩)
    else (db, Except.error PyErr.attributeError)

/-! ### Comments and spam moderation

Embeds `src/app/crud/comments.py` (`create_comment`, `update_comment_status`,
`bulk_update_comment_status`, `get_comments_with_pagination`,
`get_spam_items_with_pagination`, `update_spam_status`) and
`src/app/routers/admin/spam.py` (`format_spam_response`, `get_admin_spam`)
and the batch endpoint of `src/app/routers/admin/comments.py`.

The effective `CommentCreate` schema is the later definition in
`src/app/schemas.py` (line 552, over the `CommentBase` of line 538): fields
`body`, `author`, `author_url`, `author_email`, `author_ip`, `author_agent`,
`status`, `post_id`, `user_id`, `parent_id`, `notify` — there is no
`content` and no `ip_address` field, so the attribute reads
`comment_data.content` (crud line 18) and `comment_data.ip_address` (line 19)
raise `AttributeError` at run time. -/

/-- Row of the `comments` table (`src/app/models.py`); `created_at` is an
abstract timestamp ordinal. -/
structure CommentRow where
  id : Nat
  post_id : Int
  user_id : Option Int
  parent_id : Option Int
  body : String
  user_ip : Option String
  user_agent : Option String
  status : String
  created_at : Nat
  deriving Repr, DecidableEq

/-- State of the `comments` table together with the id sequence and clock. -/
structure CommentsDB where
  rows : List CommentRow
  nextId : Nat
  now : Nat
  deriving Repr, DecidableEq

/-- Effective `CommentCreate` schema (`src/app/schemas.py` lines 538–554). -/
structure CommentCreate where
  body : String
  author : Option String
  author_url : Option String
  author_email : Option String
  author_ip : Option Int
  author_agent : Option String
  status : Option String
  post_id : Int
  user_id : Option Int
  parent_id : Option Int
  notify : Option Bool
  deriving Repr, DecidableEq

/-- Embeds the Python attribute read `comment_data.content`: the effective
`CommentCreate` model has no `content` field, so pydantic raises
`AttributeError`. -/
def getattr_content (cd : CommentCreate) : Except PyErr String :=
  Except.error PyErr.attributeError

/-- Embeds the Python attribute read `comment_data.ip_address`: the effective
`CommentCreate` model has no `ip_address` field either. -/
def getattr_ip_address (cd : CommentCreate) : Except PyErr (Option String) :=
  Except.error PyErr.attributeError

/-- Embeds `create_comment` (crud lines 12–34): build a `Comment` with
`body=comment_data.content`, `user_ip=ip_address or comment_data.ip_address`
and `status="pending"`, add and commit it.  Evaluating the constructor
arguments happens first, so the failing attribute reads leave the table
unchanged. -/
def create_comment (db : CommentsDB) (cd : CommentCreate)
    (ip ua : Option String) : CommentsDB × Except PyErr CommentRow :=
  match getattr_content cd with
  | Except.error e => (db, Except.error e)
  | Except.ok content =>
    match (if pyTruthyStr ip then Except.ok ip else getattr_ip_address cd) with
    | Except.error e => (db, Except.error e)
    | Except.ok userIp =>
      let row : CommentRow :=
        ⟨db.nextId, cd.post_id, cd.user_id, cd.parent_id, content, userIp, ua,
          "pending", db.now⟩
      ({ rows := db.rows ++ [row], nextId := db.nextId + 1, now := db.now + 1 },
        Except.ok row)

/-- Embeds `update_comment_status` (crud lines 168–177): fetch by id, set the
status, return the updated comment (`none` when absent). -/
def update_comment_status (db : CommentsDB) (cid : Nat) (newStatus : String) :
    CommentsDB × Option CommentRow :=
  match db.rows.find? (fun r => r.id == cid) with
  | none => (db, none)
  | some c =>
    ({ db with rows :=
        db.rows.map (fun r => if r.id == cid then { r with status := newStatus } else r) },
      some { c with status := newStatus })

/-- Embeds `bulk_update_comment_status` (crud lines 222–230): one set-based
`UPDATE ... WHERE id IN ids`; the returned rowcount is the number of matched
rows. -/
def bulk_update_comment_status (db : CommentsDB) (ids : List Nat)
    (newStatus : String) : CommentsDB × Nat :=
  ({ db with rows :=
      db.rows.map (fun r => if ids.contains r.id then { r with status := newStatus } else r) },
    (db.rows.filter (fun r => ids.contains r.id)).length)

/-- Embeds the `approve` arm of the admin batch endpoint
(`src/app/routers/admin/comments.py` lines 255–258). -/
def batch_approve_comments (db : CommentsDB) (ids : List Nat) : CommentsDB × Nat :=
  bulk_update_comment_status db ids "approved"

/-- Ordering for `order_by(desc(created_at))`. -/
def commentDescOrder (a b : CommentRow) : Prop := b.created_at ≤ a.created_at

instance : DecidableRel commentDescOrder := fun a b => Nat.decLe b.created_at a.created_at

instance : IsTotal CommentRow commentDescOrder :=
  ⟨fun a b => (Nat.le_total b.created_at a.created_at).imp (fun h => h) (fun h => h)⟩

instance : IsTrans CommentRow commentDescOrder :=
  ⟨fun _ _ _ hab hbc => Nat.le_trans hbc hab⟩

/-- Ordering for `order_by(asc(created_at))`. -/
def commentAscOrder (a b : CommentRow) : Prop := a.created_at ≤ b.created_at

instance : DecidableRel commentAscOrder := fun a b => Nat.decLe a.created_at b.created_at

instance : IsTotal CommentRow commentAscOrder :=
  ⟨fun a b => Nat.le_total a.created_at b.created_at⟩

instance : IsTrans CommentRow commentAscOrder :=
  ⟨fun _ _ _ hab hbc => Nat.le_trans hab hbc⟩

/-- Embeds `get_comments_with_pagination` (crud lines 47–143) restricted to
the status filter (searches, author and date filters are out of the claims):
`if status:` applies `Comment.status == status`, sorting is by `created_at`
in the requested order, then `offset` and `limit`.  Returns the page and the
total matching count. -/
def get_comments_with_pagination (db : CommentsDB) (page limit : Nat)
    (status : Option String) (order : String) : List CommentRow × Nat :=
  let filtered :=
    if pyTruthyStr status then
      db.rows.filter (fun r => r.status == status.getD "")
    else db.rows
  let sorted :=
    if order == "desc" then filtered.insertionSort commentDescOrder
    else filtered.insertionSort commentAscOrder
  ((sorted.drop ((page - 1) * limit)).take limit, filtered.length)

/-- Embeds `get_spam_items_with_pagination` (crud lines 246–280): statuses
`rejected`/`spam`/`approved` are mapped to the stored statuses
(`rejected ↦ denied`), anything else drops the status filter entirely. -/
def get_spam_items_with_pagination (db : CommentsDB) (page limit : Nat)
    (status : Option String) (order : String) : List CommentRow × Nat :=
  let mapped : Option String :=
    if status == some "rejected" then some "denied"
    else if status == some "spam" then some "spam"
    else if status == some "approved" then some "approved"
    else none
  match mapped with
  | none => get_comments_with_pagination db page limit none order
  | some s => get_comments_with_pagination db page limit (some s) order

/-- Embeds `update_spam_status` (crud lines 308–320): map the spam-facing
status (`rejected ↦ denied`) and delegate; unknown statuses update nothing. -/
def update_spam_status (db : CommentsDB) (cid : Nat) (newStatus : String) :
    CommentsDB × Option CommentRow :=
  if newStatus = "rejected" then update_comment_status db cid "denied"
  else if newStatus = "approved" then update_comment_status db cid "approved"
  else if newStatus = "spam" then update_comment_status db cid "spam"
  else (db, none)

/-- Status rename applied by `format_spam_response`
(`src/app/routers/admin/spam.py` line 45): stored `denied` is reported as
`rejected`. -/
def format_spam_status (stored : String) : String :=
  if stored = "denied" then "rejected" else stored

/-- Embeds the listing part of the `GET /admin/spam` endpoint
(`src/app/routers/admin/spam.py` lines 119–133): a missing status filter
defaults to `"spam"` before the crud call. -/
def get_admin_spam_items (db : CommentsDB) (page limit : Nat)
    (status : Option String) (order : String) : List CommentRow × Nat :=
  let status2 := match status with
    | none => some "spam"
    | some s => some s
  get_spam_items_with_pagination db page limit status2 order

/-- Row of the `users` table (author fields used by comment formatting). -/
structure UserRow where
  id : Nat
  username : String
  email : String
  full_name : Option String
  website : Option String
  deriving Repr, DecidableEq

/-- Response shape of the spam view (`SpamItemResponse`). -/
structure SpamItemResponse where
  id : Nat
  body : String
  author : String
  email : String
  url : Option String
  ip : String
  status : String
  created_at : Nat
  deriving Repr, DecidableEq

/-- Embeds Python `a or b` for an optional string `a` (`None` / `""` falsy). -/
def pyOrStrOpt (a : Option String) (b : String) : String :=
  match a with
  | some s => if s == "" then b else s
  | none => b

/-- Embeds `format_spam_response` (`src/app/routers/admin/spam.py` lines
26–48): author data from the comment author when present, the stored status
reported with `denied` renamed to `rejected`. -/
def format_spam_response (c : CommentRow) (u : Option UserRow) : SpamItemResponse :=
  match u with
  | some user =>
    ⟨c.id, c.body, pyOrStrOpt user.full_name user.username, user.email,
      user.website, pyOrStrOpt c.user_ip "unknown",
      if c.status = "denied" then "rejected" else c.status, c.created_at⟩
  | none =>
    ⟨c.id, c.body, "Anonymous", "unknown@example.com", none,
      pyOrStrOpt c.user_ip "unknown",
      if c.status = "denied" then "rejected" else c.status, c.created_at⟩

/-! ### Slugs and unique post urls

Embeds `slugify` (`src/app/routers/admin/posts.py` lines 550–554) and
`generate_unique_url` (lines 629–648).  `slugify` lowercases, removes every
character that is not `\w`, `\s` or `-` (ASCII scope), collapses runs of
whitespace, underscores and hyphens into a single hyphen, and strips leading
and trailing hyphens.  `generate_unique_url` slugifies the custom slug (when
truthy) or the title and appends `-1`, `-2`, … until the url is held by no
existing post; the loop is given fuel `taken.length + 1`, which is proved
sufficient below. -/

/-- ASCII `\w`: letters, digits and underscore. -/
def isWordChar (c : Char) : Bool := c.isAlphanum || c == '_'

/-- ASCII `\s`: the characters Python regex treats as whitespace. -/
def isSpaceChar (c : Char) : Bool := pyWhitespace c

/-- Separator class of the second substitution: `[\s_-]`. -/
def isSepChar (c : Char) : Bool := isSpaceChar c || c == '_' || c == '-'

/-- Replace every run of separators by a single hyphen (the flag records
whether the previous character was part of a run). -/
def collapseSepsAux : Bool → List Char → List Char
  | _, [] => []
  | inRun, c :: rest =>
    if isSepChar c then
      if inRun then collapseSepsAux true rest
      else '-' :: collapseSepsAux true rest
    else c :: collapseSepsAux false rest

/-- Embeds `re.sub(r"[\s_-]+", "-", text)`. -/
def collapseSeps (l : List Char) : List Char := collapseSepsAux false l

/-- Embeds `text.strip("-")`. -/
def stripHyphens (l : List Char) : List Char :=
  ((l.dropWhile (fun c => c == '-')).reverse.dropWhile (fun c => c == '-')).reverse

/-- Embeds `slugify` (ASCII character classes). -/
def slugify (text : String) : String :=
  let lowered := text.data.map Char.toLower
  let cleaned := lowered.filter (fun c => isWordChar c || isSpaceChar c || c == '-')
  (stripHyphens (collapseSeps cleaned)).asString

/-- Embeds Python `str.strip()` (used by `handle_category` and `handle_tags`). -/
def pyStrip (s : String) : String := (stripWS s.data).asString

/-- The retry loop of `generate_unique_url`: try `slug`, then
`base-counter`, `base-(counter+1)`, … until one is not taken. -/
def genUrlLoop (taken : List String) (base : String) :
    String → Nat → Nat → Option String
  | _, _, 0 => none
  | slug, counter, fuel + 1 =>
    if taken.contains slug then
      genUrlLoop taken base (base ++ "-" ++ decRepr counter) (counter + 1) fuel
    else some slug

/-- The slug the retry loop starts from: the slugified custom slug when
truthy, else the slugified title (`generate_unique_url` lines 631–634). -/
def urlBase (title : String) (customSlug : Option String) : String :=
  if pyTruthyStr customSlug then slugify (customSlug.getD "") else slugify title

/-- Embeds `generate_unique_url`. -/
def generate_unique_url (taken : List String) (title : String)
    (customSlug : Option String) : Option String :=
  genUrlLoop taken (urlBase title customSlug) (urlBase title customSlug) 1
    (taken.length + 1)

/-- Candidate urls the retry loop examines, in order. -/
def urlCandidates (base : String) : String → Nat → Nat → List String
  | _, _, 0 => []
  | slug, counter, fuel + 1 =>
    slug :: urlCandidates base (base ++ "-" ++ decRepr counter) (counter + 1) fuel

/-! ### Admin post creation

Embeds `create_admin_post` (`src/app/routers/admin/posts.py` lines 713–1006)
together with its helpers `handle_category`, `handle_tags`,
`map_content_to_post_fields` and `create_upload_record`, and the legacy
`create_post` of `src/app/crud/posts.py` (lines 87–131).

The database is a `Session` holding a committed and a pending `AdminDB`;
every step of the handler works on the pending state (`db.add`/`db.flush`),
`db.commit()` copies pending to committed, and the `except` handler performs
`db.rollback()` (pending reset to committed).  External collaborators are
parameters: `parseISO` for `datetime.fromisoformat`, `saveFile` for the
media sink (the url of the n-th saved file) and `guessMime` for
`mimetypes.guess_type`.  An optional `CreateFault` injects an exception at
one of the steps of the `try` block, modelling "any exception raised during
category resolution, url generation, insertion or file persistence". -/

/-- Row of the `posts` table. -/
structure PostRow where
  id : Nat
  type : String
  url : String
  user_id : Nat
  title : String
  category_id : Option Nat
  body : Option String
  caption : Option String
  description : Option String
  quote : Option String
  quote_source : Option String
  link_url : Option String
  thumbnail : Option String
  deriving Repr, DecidableEq

/-- Row of the `post_attributes` table. -/
structure AttrRow where
  id : Nat
  post_id : Nat
  status : String
  pinned : Bool
  slug : String
  scheduled_at : Option String
  allow_comments : Bool
  visibility : String
  visibility_groups : Option String
  original_work : Option String
  rights_holder : Option String
  license : String
  deriving Repr, DecidableEq

/-- Row of the `tags` table. -/
structure TagRow where
  id : Nat
  post_id : Nat
  user_id : Nat
  name : String
  deriving Repr, DecidableEq

/-- Row of the `uploads` table. -/
structure UploadRow where
  id : Nat
  url : String
  user_id : Nat
  post_id : Nat
  type : String
  size : Nat
  name : String
  mime_type : String
  deriving Repr, DecidableEq

/-- Row of the `category` table. -/
structure CategoryRow where
  id : Nat
  user_id : Nat
  name : String
  slug : String
  deriving Repr, DecidableEq

/-- The tables touched by post creation, with their id sequences. -/
structure AdminDB where
  posts : List PostRow
  attrs : List AttrRow
  tags : List TagRow
  uploads : List UploadRow
  categories : List CategoryRow
  nextPostId : Nat
  nextAttrId : Nat
  nextTagId : Nat
  nextUploadId : Nat
  nextCatId : Nat
  deriving Repr, DecidableEq

/-- A SQLAlchemy session: committed state plus the pending (uncommitted)
state of the open transaction. -/
structure Session where
  committed : AdminDB
  pending : AdminDB
  deriving Repr, DecidableEq

/-- The `content` JSON object of a create request (keys read by
`map_content_to_post_fields` and the validators). -/
structure PostContent where
  body : Option String
  caption : Option String
  description : Option String
  videoThumbnail : Option String
  audioDescription : Option String
  quote : Option String
  source : Option String
  url : Option String
  linkThumbnail : Option String
  videoUrl : Option String
  deriving Repr, DecidableEq

/-- An uploaded file part (name and size are what the handler reads). -/
structure FileObj where
  filename : String
  size : Nat
  deriving Repr, DecidableEq

/-- A parsed create request: the `post_data` JSON document (absent keys are
`none`) plus the multipart file parts (empty / `none` for JSON requests). -/
structure AdminPostRequest where
  isMultipart : Bool
  title : Option String
  type : Option String
  content : PostContent
  category : Option String
  slug : Option String
  status : Option String
  isPinned : Option Bool
  scheduledDate : Option String
  commentStatus : Option String
  allowComments : Option Bool
  visibility : Option String
  visibilityGroups : Option (List Nat)
  isOriginalWork : Option Bool
  rightsHolder : Option String
  license : Option String
  tags : Option (List String)
  imageFiles : List FileObj
  videoFile : Option FileObj
  audioFile : Option FileObj
  files : List FileObj
  posterImage : Option FileObj
  captionFile : Option FileObj
  captionFiles : List FileObj
  deriving Repr, DecidableEq

/-- HTTP-level failure of the create handler. -/
inductive HttpErr where
  | badRequest (msg : String)
  | internalError
  deriving Repr, DecidableEq

/-- Injection point of an exception inside the `try` block. -/
inductive CreateFault where
  | categoryStep
  | urlStep
  | postInsert
  | attrInsert
  | tagStep
  | fileSave (i : Nat)
  deriving Repr, DecidableEq

/-- Response dictionary of a successful create (fields the claims read). -/
structure CreateResponse where
  id : Nat
  title : String
  type : String
  url : String
  status : String
  slug : String
  pinned : Bool
  category : Option Nat
  tags : List String
  uploads : List UploadRow
  deriving Repr, DecidableEq

/-- The recognized post types (`create_admin_post` line 773). -/
def validTypes : List String :=
  ["text", "quote", "link", "photo", "file", "audio", "video"]

/-- Truthiness of a file part with a filename
(`file and hasattr(file, "filename") and file.filename`). -/
def fileTruthy : Option FileObj → Bool
  | none => false
  | some f => !(f.filename == "")

/-- Validation performed before the transactional block
(`create_admin_post` lines 766–808); `none` means the request is accepted. -/
def createValidate (req : AdminPostRequest) : Option HttpErr :=
  if !(pyTruthyStr req.title) then some (HttpErr.badRequest "Title is required")
  else if !(pyTruthyStr req.type) then
    some (HttpErr.badRequest "Post type is required")
  else if !(validTypes.contains (req.type.getD "")) then
    some (HttpErr.badRequest "Invalid post type")
  else if req.type.getD "" == "text" && !(pyTruthyStr req.content.body) then
    some (HttpErr.badRequest "Body is required for text posts")
  else if req.type.getD "" == "quote" && !(pyTruthyStr req.content.quote) then
    some (HttpErr.badRequest "Quote is required for quote posts")
  else if req.type.getD "" == "link" && !(pyTruthyStr req.content.url) then
    some (HttpErr.badRequest "URL is required for link posts")
  else if req.isMultipart then
    if req.type.getD "" == "photo" && req.imageFiles.isEmpty then
      some (HttpErr.badRequest "Image files are required for photo posts")
    else if req.type.getD "" == "video" &&
        !(fileTruthy req.videoFile || pyTruthyStr req.content.videoUrl) then
      some (HttpErr.badRequest
        "Either video file or video URL is required for video posts")
    else if req.type.getD "" == "audio" && req.audioFile.isNone then
      some (HttpErr.badRequest "Audio file is required for audio posts")
    else if req.type.getD "" == "file" && req.files.isEmpty then
      some (HttpErr.badRequest "Files are required for file posts")
    else none
  else
    if req.type.getD "" == "video" && !(pyTruthyStr req.content.videoUrl) then
      some (HttpErr.badRequest
        "Video URL is required for video posts in JSON requests")
    else none

/-- Embeds `handle_category` (lines 589–626): case-insensitive lookup of the
trimmed name, else creation with a slug made unique by the same numeric
suffix loop (the fallback of `getD` is unreachable: the loop is total at
this fuel, see `genUrlLoop_total`). -/
def handle_category (nameOpt : Option String) (uid : Nat) (db : AdminDB) :
    Option Nat × AdminDB :=
  match nameOpt with
  | none => (none, db)
  | some name0 =>
    if name0 == "" || pyStrip name0 == "" then (none, db)
    else
      let name := pyStrip name0
      match db.categories.find?
          (fun c => c.name.data.map Char.toLower == name.data.map Char.toLower) with
      | some c => (some c.id, db)
      | none =>
        let slug0 := slugify name
        let slug := (genUrlLoop (db.categories.map (fun c => c.slug)) slug0 slug0 1
          (db.categories.length + 1)).getD slug0
        (some db.nextCatId,
          { db with
            categories := db.categories ++ [⟨db.nextCatId, uid, name, slug⟩],
            nextCatId := db.nextCatId + 1 })

/-- The flat post columns selected per type. -/
structure PostFields where
  body : Option String
  caption : Option String
  description : Option String
  thumbnail : Option String
  quote : Option String
  quote_source : Option String
  link_url : Option String
  deriving Repr, DecidableEq

/-- Embeds `map_content_to_post_fields` (lines 685–710). -/
def map_content_to_post_fields (ty : String) (content : PostContent) : PostFields :=
  if ty == "text" then ⟨content.body, none, none, none, none, none, none⟩
  else if ty == "photo" then ⟨none, content.caption, none, none, none, none, none⟩
  else if ty == "video" then
    ⟨none, content.caption, content.description, content.videoThumbnail,
      none, none, none⟩
  else if ty == "audio" then
    ⟨none, content.audioDescription, content.description, none, none, none, none⟩
  else if ty == "quote" then
    ⟨none, none, none, none, content.quote, content.source, none⟩
  else if ty == "link" then
    ⟨none, none, content.description, content.linkThumbnail, none, none,
      content.url⟩
  else if ty == "file" then
    ⟨none, none, content.description, none, none, none, none⟩
  else ⟨none, none, none, none, none, none, none⟩

/-- Embeds `handle_tags` (lines 651–660): one row per trimmed nonempty name. -/
def handle_tags (pid : Nat) (names : List String) (uid : Nat) (db : AdminDB) :
    AdminDB :=
  names.foldl
    (fun d tn =>
      if pyStrip tn == "" then d
      else
        { d with
          tags := d.tags ++ [⟨d.nextTagId, pid, uid, pyStrip tn⟩],
          nextTagId := d.nextTagId + 1 })
    db

/-- Url stored on an upload row (`create_upload_record` line 669). -/
def urlifyPath (p : String) : String :=
  if p.startsWith "http" then p else "/" ++ p

/-- `allow_comments` derivation (lines 854–859). -/
def adminAllowComments (req : AdminPostRequest) : Bool :=
  if pyTruthyStr req.commentStatus then req.commentStatus.getD "" == "open"
  else
    match req.allowComments with
    | some b => b
    | none => true

/-- `visibility_groups` serialization (lines 861–864): `json.dumps` of a
truthy list. -/
def adminVisibilityGroups (req : AdminPostRequest) : Option String :=
  match req.visibilityGroups with
  | none => none
  | some l =>
    if l.isEmpty then none
    else some ("[" ++ String.intercalate ", " (l.map decRepr) ++ "]")

/-- `original_work` derivation (line 875): `str()` of the boolean when the
key is present. -/
def adminOriginalWork (req : AdminPostRequest) : Option String :=
  match req.isOriginalWork with
  | some b => some (if b then "True" else "False")
  | none => none

/-- `scheduled_at` (lines 846–852): parse the ISO string with `Z` replaced,
failures silently ignored. -/
def adminScheduledAt (req : AdminPostRequest)
    (parseISO : String → Option String) : Option String :=
  if pyTruthyStr req.scheduledDate then
    parseISO ((req.scheduledDate.getD "").replace "Z" "+00:00")
  else none

/-- Set `link_url` on a pending post row (line 911). -/
def setPostLinkUrl (db : AdminDB) (pid : Nat) (u : String) : AdminDB :=
  { db with posts :=
      db.posts.map (fun p => if p.id == pid then { p with link_url := some u } else p) }

/-- Set `thumbnail` on a pending post row (line 945). -/
def setPostThumbnail (db : AdminDB) (pid : Nat) (u : String) : AdminDB :=
  { db with posts :=
      db.posts.map (fun p => if p.id == pid then { p with thumbnail := some u } else p) }

/-- Save one file part and insert its upload row.  `idx` counts performed
save operations (the fault index); parts with a falsy filename are skipped.
Returns the new state, next index, and the row with its storage path when a
save happened. -/
def saveOne (fault : Option CreateFault) (saveFile : Nat → String)
    (guessMime : String → Option String) (uid pid : Nat) (uptype : String)
    (f : FileObj) (idx : Nat) (db : AdminDB) :
    Except HttpErr (AdminDB × Nat × Option (UploadRow × String)) :=
  if f.filename == "" then Except.ok (db, idx, none)
  else if fault == some (CreateFault.fileSave idx) then
    Except.error HttpErr.internalError
  else
    let path := saveFile idx
    let u : UploadRow :=
      ⟨db.nextUploadId, urlifyPath path, uid, pid, uptype, f.size, f.filename,
        (guessMime f.filename).getD "application/octet-stream"⟩
    Except.ok
      ({ db with
          uploads := db.uploads ++ [u],
          nextUploadId := db.nextUploadId + 1 },
        idx + 1, some (u, path))

/-- Save a list of file parts in order. -/
def saveList (fault : Option CreateFault) (saveFile : Nat → String)
    (guessMime : String → Option String) (uid pid : Nat) (uptype : String) :
    List FileObj → Nat → AdminDB → List UploadRow →
    Except HttpErr (AdminDB × Nat × List UploadRow)
  | [], idx, db, acc => Except.ok (db, idx, acc)
  | f :: rest, idx, db, acc =>
    match saveOne fault saveFile guessMime uid pid uptype f idx db with
    | Except.error e => Except.error e
    | Except.ok (db1, idx1, none) =>
      saveList fault saveFile guessMime uid pid uptype rest idx1 db1 acc
    | Except.ok (db1, idx1, some (u, _)) =>
      saveList fault saveFile guessMime uid pid uptype rest idx1 db1 (acc ++ [u])

/-- The type-specific file section (lines 888–932): the main uploads of the
post, with a successful video upload mirrored into the post row. -/
def uploadMain (req : AdminPostRequest) (fault : Option CreateFault)
    (saveFile : Nat → String) (guessMime : String → Option String)
    (uid pid : Nat) (db : AdminDB) :
    Except HttpErr (AdminDB × Nat × List UploadRow) :=
  let ty := req.type.getD ""
  if ty == "photo" then
    saveList fault saveFile guessMime uid pid "image" req.imageFiles 0 db []
  else if ty == "video" then
    match req.videoFile with
    | none => Except.ok (db, 0, [])
    | some vf =>
      match saveOne fault saveFile guessMime uid pid "video" vf 0 db with
      | Except.error e => Except.error e
      | Except.ok (db1, idx1, none) => Except.ok (db1, idx1, [])
      | Except.ok (db1, idx1, some (u, path)) =>
        Except.ok (setPostLinkUrl db1 pid (urlifyPath path), idx1, [u])
  else if ty == "audio" then
    match req.audioFile with
    | none => Except.ok (db, 0, [])
    | some af =>
      match saveOne fault saveFile guessMime uid pid "audio" af 0 db with
      | Except.error e => Except.error e
      | Except.ok (db1, idx1, none) => Except.ok (db1, idx1, [])
      | Except.ok (db1, idx1, some (u, _)) => Except.ok (db1, idx1, [u])
  else if ty == "file" then
    saveList fault saveFile guessMime uid pid "file" req.files 0 db []
  else Except.ok (db, 0, [])

/-- The poster image section (lines 934–945), mirrored into `thumbnail`. -/
def uploadPoster (req : AdminPostRequest) (fault : Option CreateFault)
    (saveFile : Nat → String) (guessMime : String → Option String)
    (uid pid : Nat) (db : AdminDB) (idx : Nat) (ups : List UploadRow) :
    Except HttpErr (AdminDB × Nat × List UploadRow) :=
  match req.posterImage with
  | none => Except.ok (db, idx, ups)
  | some pf =>
    match saveOne fault saveFile guessMime uid pid "image" pf idx db with
    | Except.error e => Except.error e
    | Except.ok (db2, idx2, none) => Except.ok (db2, idx2, ups)
    | Except.ok (db2, idx2, some (u, path)) =>
      Except.ok (setPostThumbnail db2 pid (urlifyPath path), idx2, ups ++ [u])

/-- The single caption file section (lines 947–955). -/
def uploadCaption (req : AdminPostRequest) (fault : Option CreateFault)
    (saveFile : Nat → String) (guessMime : String → Option String)
    (uid pid : Nat) (db : AdminDB) (idx : Nat) (ups : List UploadRow) :
    Except HttpErr (AdminDB × Nat × List UploadRow) :=
  match req.captionFile with
  | none => Except.ok (db, idx, ups)
  | some cf =>
    match saveOne fault saveFile guessMime uid pid "caption" cf idx db with
    | Except.error e => Except.error e
    | Except.ok (db3, idx3, none) => Except.ok (db3, idx3, ups)
    | Except.ok (db3, idx3, some (u, _)) => Except.ok (db3, idx3, ups ++ [u])

/-- The multipart upload section of the handler (lines 885–966): the main
type-specific files, then the poster image, then caption files. -/
def processUploads (req : AdminPostRequest) (fault : Option CreateFault)
    (saveFile : Nat → String) (guessMime : String → Option String)
    (uid pid : Nat) (db : AdminDB) :
    Except HttpErr (AdminDB × List UploadRow) :=
  match uploadMain req fault saveFile guessMime uid pid db with
  | Except.error e => Except.error e
  | Except.ok (db1, idx1, ups1) =>
    match uploadPoster req fault saveFile guessMime uid pid db1 idx1 ups1 with
    | Except.error e => Except.error e
    | Except.ok (db2, idx2, ups2) =>
      match uploadCaption req fault saveFile guessMime uid pid db2 idx2 ups2 with
      | Except.error e => Except.error e
      | Except.ok (db3, idx3, ups3) =>
        match saveList fault saveFile guessMime uid pid "caption"
            req.captionFiles idx3 db3 ups3 with
        | Except.error e => Except.error e
        | Except.ok (db4, _, ups4) => Except.ok (db4, ups4)

/-- The per-type column mapping plus the URL-video special case
(lines 825–830). -/
def adminPostFields (req : AdminPostRequest) : PostFields :=
  let pf0 := map_content_to_post_fields (req.type.getD "") req.content
  if req.type.getD "" == "video" && pyTruthyStr req.content.videoUrl &&
      req.videoFile.isNone then
    { pf0 with link_url := req.content.videoUrl }
  else pf0

/-- The `PostAttribute` row inserted by the handler (lines 866–878). -/
def adminAttrRow (req : AdminPostRequest) (parseISO : String → Option String)
    (aid pid : Nat) (postUrl : String) : AttrRow :=
  ⟨aid, pid, req.status.getD "draft", req.isPinned.getD false, postUrl,
    adminScheduledAt req parseISO, adminAllowComments req,
    req.visibility.getD "public", adminVisibilityGroups req,
    adminOriginalWork req, req.rightsHolder,
    req.license.getD "All Rights Reserved"⟩

/-- Tag insertion when a truthy `tags` list is present (lines 881–883). -/
def applyTags (req : AdminPostRequest) (pid uid : Nat) (db : AdminDB) : AdminDB :=
  match req.tags with
  | some tl => if tl.isEmpty then db else handle_tags pid tl uid db
  | none => db

/-- File processing, skipped entirely for JSON requests (line 888). -/
def maybeUploads (req : AdminPostRequest) (fault : Option CreateFault)
    (saveFile : Nat → String) (guessMime : String → Option String)
    (uid pid : Nat) (db : AdminDB) :
    Except HttpErr (AdminDB × List UploadRow) :=
  if req.isMultipart then processUploads req fault saveFile guessMime uid pid db
  else Except.ok (db, [])

/-- The transactional block of `create_admin_post` (lines 810–1000 up to the
commit): every step works on the pending state; a `CreateFault` at a step
raises there. -/
def createTry (p0 : AdminDB) (req : AdminPostRequest) (uid : Nat)
    (parseISO : String → Option String) (saveFile : Nat → String)
    (guessMime : String → Option String) (fault : Option CreateFault) :
    Except HttpErr (AdminDB × CreateResponse) :=
  if fault == some CreateFault.categoryStep then Except.error HttpErr.internalError
  else
    match handle_category req.category uid p0 with
    | (categoryId, p1) =>
      if fault == some CreateFault.urlStep then Except.error HttpErr.internalError
      else
        let postUrl := (generate_unique_url (p1.posts.map (fun p => p.url))
          (req.title.getD "") req.slug).getD ""
        let pf := adminPostFields req
        if fault == some CreateFault.postInsert then
          Except.error HttpErr.internalError
        else
          let post : PostRow :=
            ⟨p1.nextPostId, req.type.getD "", postUrl, uid, req.title.getD "",
              categoryId, pf.body, pf.caption, pf.description, pf.quote,
              pf.quote_source, pf.link_url, pf.thumbnail⟩
          let p2 := { p1 with
            posts := p1.posts ++ [post],
            nextPostId := p1.nextPostId + 1 }
          if fault == some CreateFault.attrInsert then
            Except.error HttpErr.internalError
          else
            let attr := adminAttrRow req parseISO p2.nextAttrId post.id postUrl
            let p3 := { p2 with
              attrs := p2.attrs ++ [attr],
              nextAttrId := p2.nextAttrId + 1 }
            if fault == some CreateFault.tagStep then
              Except.error HttpErr.internalError
            else
              let p4 := applyTags req post.id uid p3
              match maybeUploads req fault saveFile guessMime uid post.id p4 with
              | Except.error e => Except.error e
              | Except.ok (p5, ups) =>
                Except.ok (p5,
                  ⟨post.id, post.title, post.type, post.url, attr.status,
                    attr.slug, attr.pinned, categoryId, req.tags.getD [], ups⟩)

/-- Embeds the whole `POST /admin/posts` handler: validation outside the
transaction, the `try` block on the pending state, `db.commit()` on success
(line 968) and `db.rollback()` on any exception (line 1003). -/
def create_admin_post (sess : Session) (req : AdminPostRequest) (uid : Nat)
    (parseISO : String → Option String) (saveFile : Nat → String)
    (guessMime : String → Option String) (fault : Option CreateFault) :
    Session × Except HttpErr CreateResponse :=
  match createValidate req with
  | some e => (sess, Except.error e)
  | none =>
    match createTry sess.pending req uid parseISO saveFile guessMime fault with
    | Except.error e =>
      ({ committed := sess.committed, pending := sess.committed }, Except.error e)
    | Except.ok (p, resp) => ({ committed := p, pending := p }, Except.ok resp)

/-- Python `a or b` on two optional strings (crud `create_post` line 102). -/
def pyOrOpt (a b : Option String) : Option String :=
  match a with
  | some s => if s == "" then b else some s
  | none => b

/-- Effective `PostCreate` schema of `src/app/schemas.py` (lines 420–451, the
later of the two definitions): the fields read by the legacy crud
`create_post`.  A request that omits `status` parses with
`status = some "published"` (the schema default, line 427). -/
structure PostCreateIn where
  type : Option String
  url : Option String
  title : String
  status : Option String
  pinned : Option Bool
  tag_names : Option (List String)
  body : Option String
  caption : Option String
  quote : Option String
  quote_source : Option String
  link_url : Option String
  link_thumbnail : Option String
  video_thumbnail : Option String
  deriving Repr, DecidableEq

/-- Embeds `create_post` of `src/app/crud/posts.py` (lines 87–131): inserts
the post row, the attribute row (status `post.status or "published"`) and
the tags, in one commit. -/
def crud_create_post (db : AdminDB) (post : PostCreateIn) (uid : Nat) :
    AdminDB × Nat :=
  let dbPost : PostRow :=
    ⟨db.nextPostId, (pyOrStrOpt post.type "text"), (pyOrStrOpt post.url ""),
      uid, post.title, none, post.body, post.caption, none, post.quote,
      post.quote_source, post.link_url,
      pyOrOpt post.link_thumbnail post.video_thumbnail⟩
  let db1 := { db with
    posts := db.posts ++ [dbPost],
    nextPostId := db.nextPostId + 1 }
  let attr : AttrRow :=
    ⟨db1.nextAttrId, dbPost.id, pyOrStrOpt post.status "published",
      post.pinned.getD false,
      pyOrStrOpt post.url ("post-" ++ decRepr dbPost.id), none, true,
      "public", none, none, none, "All Rights Reserved"⟩
  let db2 := { db1 with
    attrs := db1.attrs ++ [attr],
    nextAttrId := db1.nextAttrId + 1 }
  let db3 :=
    match post.tag_names with
    | some tl =>
      if tl.isEmpty then db2
      else
        tl.foldl
          (fun d tn =>
            { d with
              tags := d.tags ++ [⟨d.nextTagId, dbPost.id, uid, tn⟩],
              nextTagId := d.nextTagId + 1 })
          db2
    | none => db2
  (db3, dbPost.id)

/-- The empty database used by concrete create witnesses. -/
def adminDbEmpty : AdminDB := ⟨[], [], [], [], [], 1, 1, 1, 1, 1⟩

/-- Concrete state for the likes witnesses: empty table, post 5, user 2. -/
def likeDbW : LikesDB := ⟨[], 1⟩

/-- Concrete `LikeCreate` body for the likes witnesses. -/
def likeCreateW : LikeCreate := ⟨5, 2, "hash"⟩

/-- Concrete request for the create witnesses: a JSON text post. -/
def adminReqW : AdminPostRequest :=
  ⟨false, some "Hello World", some "text",
    ⟨some "Hi", none, none, none, none, none, none, none, none, none⟩,
    none, none, none, none, none, none, none, none, none, none, none, none,
    none, [], none, none, [], none, none, []⟩

/-- Concrete crud request without a status (`status := none` models an
explicit JSON null; omitting the key parses to `some "published"`, the
schema default — either way no draft). -/
def postInNoStatus : PostCreateIn :=
  ⟨some "text", none, "Hello World", none, none, none, some "Hi", none, none,
    none, none, none, none⟩

/-! ### Theorems -/

theorem digitVal_digitChar : ∀ n : Nat, n < 10 → digitVal (Nat.digitChar n) = n := by
  decide

theorem isDigit_digitChar : ∀ n : Nat, n < 10 → (Nat.digitChar n).isDigit = true := by
  decide

theorem decDigitsRev_fuel {f g n : Nat} (hf : n < f) (hg : n < g) :
    decDigitsRev f n = decDigitsRev g n := by
  induction f generalizing g n with
  | zero => omega
  | succ f ih =>
    cases g with
    | zero => omega
    | succ g =>
      simp only [decDigitsRev]
      by_cases h : n < 10
      · simp [h]
      · simp only [h, if_false]
        have hn : 0 < n := by omega
        have hdiv : n / 10 < n := Nat.div_lt_self hn (by omega)
        rw [ih (show n / 10 < f by omega) (show n / 10 < g by omega)]

theorem valLE_decDigitsRev {f n : Nat} (hf : n < f) :
    (decDigitsRev f n).foldr (fun c a => a * 10 + digitVal c) 0 = n := by
  induction f generalizing n with
  | zero => omega
  | succ f ih =>
    simp only [decDigitsRev]
    by_cases h : n < 10
    · simp [h, List.foldr, digitVal_digitChar n h]
    · simp only [h, if_false, List.foldr]
      have hn : 0 < n := by omega
      have hdiv : n / 10 < n := Nat.div_lt_self hn (by omega)
      rw [ih (by omega)]
      have h10 : n % 10 < 10 := Nat.mod_lt _ (by omega)
      rw [digitVal_digitChar _ h10]
      omega

theorem decDigitsRev_digits {f n : Nat} (hf : n < f) :
    ∀ c ∈ decDigitsRev f n, c.isDigit = true := by
  induction f generalizing n with
  | zero => omega
  | succ f ih =>
    simp only [decDigitsRev]
    by_cases h : n < 10
    · simp only [h, if_true, List.mem_singleton]
      rintro c rfl
      exact isDigit_digitChar n h
    · simp only [h, if_false, List.mem_cons]
      have hn : 0 < n := by omega
      have hdiv : n / 10 < n := Nat.div_lt_self hn (by omega)
      rintro c (rfl | hc)
      · exact isDigit_digitChar _ (Nat.mod_lt _ (by omega))
      · exact ih (by omega) c hc

theorem decDigitsRev_ne_nil {f n : Nat} (hf : n < f) : decDigitsRev f n ≠ [] := by
  cases f with
  | zero => omega
  | succ f =>
    simp only [decDigitsRev]
    by_cases h : n < 10 <;> simp [h]

theorem isDigit_not_whitespace {c : Char} (h : c.isDigit = true) :
    pyWhitespace c = false := by
  simp only [pyWhitespace, Bool.or_eq_false_iff]
  refine ⟨⟨⟨⟨⟨?_, ?_⟩, ?_⟩, ?_⟩, ?_⟩, ?_⟩ <;>
    · rw [beq_eq_false_iff_ne]
      rintro rfl
      simp [Char.isDigit] at h

theorem isDigit_ne_underscore {c : Char} (h : c.isDigit = true) : c ≠ '_' := by
  rintro rfl
  simp [Char.isDigit] at h

theorem isDigit_ne_minus {c : Char} (h : c.isDigit = true) : c ≠ '-' := by
  rintro rfl
  simp [Char.isDigit] at h

theorem isDigit_ne_plus {c : Char} (h : c.isDigit = true) : c ≠ '+' := by
  rintro rfl
  simp [Char.isDigit] at h

theorem parseDigitsCore_digits {cs : List Char} (h : ∀ c ∈ cs, c.isDigit = true) :
    ∀ acc, parseDigitsCore cs acc =
      some (cs.foldl (fun a c => a * 10 + digitVal c) acc) := by
  induction cs with
  | nil => intro acc; rfl
  | cons c rest ih =>
    intro acc
    have hc : c.isDigit = true := h c (List.mem_cons_self _ _)
    have hrest : ∀ x ∈ rest, x.isDigit = true := fun x hx => h x (List.mem_cons_of_mem _ hx)
    cases rest with
    | nil => simp [parseDigitsCore, hc]
    | cons c2 rest2 =>
      rw [show parseDigitsCore (c :: c2 :: rest2) acc =
          (if c = '_' then
            if c2.isDigit then parseDigitsCore rest2 (acc * 10 + digitVal c2) else none
          else if c.isDigit then parseDigitsCore (c2 :: rest2) (acc * 10 + digitVal c)
          else none) from rfl]
      rw [if_neg (isDigit_ne_underscore hc), if_pos hc, List.foldl_cons]
      exact ih hrest _

theorem stripWS_digits {cs : List Char} (hne : cs ≠ [])
    (h : ∀ c ∈ cs, c.isDigit = true) : stripWS cs = cs := by
  unfold stripWS
  have h1 : cs.dropWhile pyWhitespace = cs := by
    cases cs with
    | nil => rfl
    | cons c rest =>
      rw [List.dropWhile_cons_of_neg]
      simp [isDigit_not_whitespace (h c (List.mem_cons_self _ _))]
  rw [h1]
  have h2 : cs.reverse.dropWhile pyWhitespace = cs.reverse := by
    rcases hr : cs.reverse with _ | ⟨c, rest⟩
    · rfl
    · rw [List.dropWhile_cons_of_neg]
      have : c ∈ cs := by
        have : c ∈ cs.reverse := by rw [hr]; exact List.mem_cons_self _ _
        simpa using this
      simp [isDigit_not_whitespace (h c this)]
  rw [h2, List.reverse_reverse]

theorem pyInt_decRepr (n : Nat) : pyInt (decRepr n) = some (n : Int) := by
  unfold pyInt decRepr
  have hdata : ((decDigitsRev (n + 1) n).reverse.asString).data =
      (decDigitsRev (n + 1) n).reverse := rfl
  rw [hdata]
  have hlt : n < n + 1 := Nat.lt_succ_self n
  have hdig : ∀ c ∈ (decDigitsRev (n + 1) n).reverse, c.isDigit = true := by
    intro c hc
    exact decDigitsRev_digits hlt c (by simpa using hc)
  have hne : (decDigitsRev (n + 1) n).reverse ≠ [] := by
    simpa using decDigitsRev_ne_nil hlt
  rw [stripWS_digits hne hdig]
  rcases hr : (decDigitsRev (n + 1) n).reverse with _ | ⟨c, rest⟩
  · exact absurd hr hne
  · have hc : c.isDigit = true := hdig c (by rw [hr]; exact List.mem_cons_self _ _)
    have hrest : ∀ x ∈ rest, x.isDigit = true := by
      intro x hx
      exact hdig x (by rw [hr]; exact List.mem_cons_of_mem _ hx)
    simp only [parseSignedDigits, isDigit_ne_minus hc, if_false, isDigit_ne_plus hc,
      parseDigitsStart, hc, if_true]
    rw [parseDigitsCore_digits hrest]
    have hval : (decDigitsRev (n + 1) n).reverse.foldl
        (fun a c => a * 10 + digitVal c) 0 = n := by
      rw [List.foldl_reverse]
      exact valLE_decDigitsRev hlt
    rw [hr, List.foldl_cons] at hval
    have h0 : 0 * 10 + digitVal c = digitVal c := by omega
    rw [h0] at hval
    rw [hval]
    rfl

theorem decRepr_inj : Function.Injective decRepr := by
  intro m n h
  have hm := pyInt_decRepr m
  have hn := pyInt_decRepr n
  rw [h, hn] at hm
  simpa using hm.symm

theorem decRepr_ne_empty (n : Nat) : decRepr n ≠ "" := by
  intro h
  have h1 := pyInt_decRepr n
  rw [h] at h1
  have h2 : pyInt "" = none := by decide
  rw [h2] at h1
  exact Option.noConfusion h1

/-- C10: a cursor string rejected by `int()` is silently ignored: the call
behaves exactly like the same call without a cursor. -/
theorem get_feed_invalid_cursor (db : List FeedPost) (L : Nat) (s : String)
    (search : Option String) (h : pyInt s = none) :
    get_feed db L (some s) search = get_feed db L none search := by
  have hc : effCursor (some s) = none := by
    unfold effCursor
    by_cases he : s == ""
    · simp [he]
    · simp [he, h]
  unfold get_feed feedQueryRows
  rw [hc]
  rfl

/-- Witness for C10 at the concrete cursor string `"abc"`. -/
theorem get_feed_invalid_cursor_witness :
    pyInt "abc" = none ∧
      get_feed [] 10 (some "abc") none = get_feed [] 10 none none :=
  ⟨by decide, get_feed_invalid_cursor [] 10 "abc" none (by decide)⟩

theorem orderedInsert_eq_cons {α : Type} {r : α → α → Prop} [DecidableRel r]
    (a : α) (l : List α) (h : ∀ x ∈ l, r a x) : l.orderedInsert r a = a :: l := by
  cases l with
  | nil => rfl
  | cons b l =>
    exact List.orderedInsert_of_le r l (h b (List.mem_cons_self _ _))

theorem filter_orderedInsert {α : Type} {r : α → α → Prop} [DecidableRel r]
    [IsTrans α r] (q : α → Bool) (a : α) :
    ∀ m : List α, m.Sorted r →
      (m.orderedInsert r a).filter q =
        if q a then (m.filter q).orderedInsert r a else m.filter q := by
  intro m
  induction m with
  | nil =>
    intro _
    by_cases hq : q a <;> simp [List.orderedInsert, hq]
  | cons b m ih =>
    intro hs
    have hsm : m.Sorted r := hs.of_cons
    have hbm : ∀ x ∈ m, r b x := List.rel_of_sorted_cons hs
    by_cases hab : r a b
    · rw [show (b :: m).orderedInsert r a = a :: b :: m from
        List.orderedInsert_of_le r m hab]
      by_cases hqa : q a
      · rw [if_pos hqa, List.filter_cons_of_pos hqa]
        by_cases hqb : q b
        · rw [List.filter_cons_of_pos hqb,
            List.orderedInsert_of_le r _ hab]
        · rw [List.filter_cons_of_neg hqb]
          refine (orderedInsert_eq_cons a _ ?_).symm
          intro x hx
          have hxm : x ∈ m := (List.mem_filter.mp hx).1
          exact Trans.trans hab (hbm x hxm)
      · rw [if_neg hqa, List.filter_cons_of_neg hqa]
    · rw [show (b :: m).orderedInsert r a =
          b :: m.orderedInsert r a by simp [List.orderedInsert, hab]]
      by_cases hqb : q b
      · rw [List.filter_cons_of_pos hqb, List.filter_cons_of_pos hqb,
          ih hsm]
        by_cases hqa : q a
        · rw [if_pos hqa, if_pos hqa,
            show (b :: m.filter q).orderedInsert r a =
              b :: (m.filter q).orderedInsert r a by simp [List.orderedInsert, hab]]
        · rw [if_neg hqa, if_neg hqa]
      · rw [List.filter_cons_of_neg hqb, List.filter_cons_of_neg hqb, ih hsm]

theorem insertionSort_filter {α : Type} {r : α → α → Prop} [DecidableRel r]
    [IsTotal α r] [IsTrans α r] (q : α → Bool) (l : List α) :
    (l.filter q).insertionSort r = (l.insertionSort r).filter q := by
  induction l with
  | nil => rfl
  | cons a l ih =>
    rw [show (a :: l).insertionSort r = (l.insertionSort r).orderedInsert r a from rfl,
      filter_orderedInsert q a _ (List.sorted_insertionSort r l)]
    by_cases hqa : q a
    · rw [List.filter_cons_of_pos hqa, if_pos hqa,
        show (a :: l.filter q).insertionSort r =
          ((l.filter q).insertionSort r).orderedInsert r a from rfl, ih]
    · rw [List.filter_cons_of_neg hqa, if_neg hqa, ih]

theorem feedQueryRows_none_cursor (db : List FeedPost) (c : Option String) :
    feedQueryRows db none c =
      (publishedDesc db).filter (cursorKeep (effCursor c)) := by
  unfold feedQueryRows publishedDesc publishedPosts
  simp only [pyTruthyStr, if_false]
  exact insertionSort_filter _ _

theorem feedQueryRows_no_cursor (db : List FeedPost) :
    feedQueryRows db none none = publishedDesc db := by
  rw [feedQueryRows_none_cursor]
  simp [cursorKeep, effCursor]

theorem dropLast_concat_getLast? {α : Type} :
    ∀ {l : List α} {p : α}, l.getLast? = some p → l = l.dropLast ++ [p] := by
  intro l
  induction l with
  | nil => intro p h; exact absurd h (by simp)
  | cons a l ih =>
    intro p h
    cases l with
    | nil =>
      simp only [List.getLast?_singleton, Option.some_inj] at h
      simp [h]
    | cons b t =>
      rw [List.getLast?_cons_cons] at h
      have := ih h
      calc a :: b :: t = a :: ((b :: t).dropLast ++ [p]) := by rw [← this]
        _ = (a :: b :: t).dropLast ++ [p] := by simp

theorem filter_lt_of_append {S C B : List FeedPost} (a : FeedPost)
    (hS : S.Pairwise (fun x y => y.id < x.id)) (h : S = C ++ a :: B) :
    S.filter (cursorKeep (some (a.id : Int))) = B := by
  subst h
  rw [List.filter_append]
  rcases List.pairwise_append.mp hS with ⟨hC, haB, hcross⟩
  have h1 : C.filter (cursorKeep (some (a.id : Int))) = [] := by
    rw [List.filter_eq_nil_iff]
    intro x hx
    have : a.id < x.id := hcross x hx a (List.mem_cons_self _ _)
    simp only [cursorKeep, decide_eq_true_eq]
    intro hcontra
    have : (x.id : Int) < (a.id : Int) := hcontra
    omega
  have h2 : (a :: B).filter (cursorKeep (some (a.id : Int))) = B := by
    rw [List.filter_cons_of_neg, List.filter_eq_self.mpr]
    · intro y hy
      have : y.id < a.id := (List.rel_of_pairwise_cons haB) hy
      simp only [cursorKeep, decide_eq_true_eq]
      exact_mod_cast this
    · simp [cursorKeep]
  rw [h1, h2, List.nil_append]

theorem get_feed_posts (db : List FeedPost) (L : Nat) (c s : Option String) :
    (get_feed db L c s).posts = (feedQueryRows db s c).take L := rfl

theorem get_feed_hasMore (db : List FeedPost) (L : Nat) (c s : Option String) :
    (get_feed db L c s).hasMore = decide ((get_feed db L c s).posts.length = L) := rfl

theorem get_feed_nextCursor (db : List FeedPost) (L : Nat) (c s : Option String) :
    (get_feed db L c s).nextCursor =
      match (get_feed db L c s).posts.getLast? with
      | none => none
      | some p => if (get_feed db L c s).hasMore then some (decRepr p.id) else none := rfl

theorem feedChainAux_ne_nil (db : List FeedPost) (L : Nat) :
    ∀ (fuel : Nat) (c : Option String), feedChainAux db L fuel c ≠ [] := by
  intro fuel c
  cases fuel with
  | zero => simp [feedChainAux]
  | succ f =>
    simp only [feedChainAux]
    by_cases h : (get_feed db L c none).hasMore = true <;> simp [h]

theorem effCursor_decRepr (n : Nat) :
    effCursor (some (decRepr n)) = some (n : Int) := by
  have h1 : effCursor (some (decRepr n)) =
      if (decRepr n == "") = true then none
      else
        match pyInt (decRepr n) with
        | some k => some k
        | none => none := rfl
  have hne : ¬((decRepr n == "") = true) := by simp [decRepr_ne_empty n]
  rw [h1, if_neg hne, pyInt_decRepr]

theorem feedChainAux_go (db : List FeedPost) (L : Nat) (hL : 1 ≤ L)
    (hstrict : (publishedDesc db).Pairwise (fun a b => b.id < a.id)) :
    ∀ (fuel : Nat) (c : Option String) (A tail : List FeedPost),
      publishedDesc db = A ++ tail →
      feedQueryRows db none c = tail →
      tail.length < fuel →
      ((feedChainAux db L fuel c).map FeedResponse.posts).flatten = tail ∧
        ∃ r, (feedChainAux db L fuel c).getLast? = some r ∧ r.hasMore = false := by
  intro fuel
  induction fuel with
  | zero =>
    intro c A tail hA htail hlen
    omega
  | succ f ih =>
    intro c A tail hA htail hlen
    have hposts : (get_feed db L c none).posts = tail.take L := by
      rw [get_feed_posts, htail]
    by_cases hcase : tail.length < L
    · have htake : tail.take L = tail := List.take_of_length_le (le_of_lt hcase)
      have hhm : (get_feed db L c none).hasMore = false := by
        rw [get_feed_hasMore, hposts, htake]
        simp
        omega
      simp only [feedChainAux, hhm, Bool.false_eq_true, if_false]
      refine ⟨?_, get_feed db L c none, rfl, hhm⟩
      simp [hposts, htake]
    · have hlenp : (tail.take L).length = L := by
        rw [List.length_take]
        omega
      have hhm : (get_feed db L c none).hasMore = true := by
        rw [get_feed_hasMore, hposts, hlenp]
        simp
      have hne : tail.take L ≠ [] := by
        intro h0
        rw [h0] at hlenp
        simp at hlenp
        omega
      obtain ⟨p, hp⟩ : ∃ p, (tail.take L).getLast? = some p := by
        cases hgl : (tail.take L).getLast? with
        | some p => exact ⟨p, rfl⟩
        | none => exact absurd (List.getLast?_eq_none_iff.mp hgl) hne
      have hnc : (get_feed db L c none).nextCursor = some (decRepr p.id) := by
        rw [get_feed_nextCursor, hposts, hp]
        simp [hhm]
      have hsplit : tail.take L = (tail.take L).dropLast ++ [p] :=
        dropLast_concat_getLast? hp
      have hdecomp : publishedDesc db =
          (A ++ (tail.take L).dropLast) ++ p :: tail.drop L := by
        calc publishedDesc db = A ++ tail := hA
          _ = A ++ (tail.take L ++ tail.drop L) := by rw [List.take_append_drop]
          _ = A ++ (((tail.take L).dropLast ++ [p]) ++ tail.drop L) := by
              rw [← hsplit]
          _ = (A ++ (tail.take L).dropLast) ++ p :: tail.drop L := by simp
      have htail' : feedQueryRows db none (some (decRepr p.id)) = tail.drop L := by
        rw [feedQueryRows_none_cursor, effCursor_decRepr]
        exact filter_lt_of_append p hstrict hdecomp
      have hA' : publishedDesc db = (A ++ tail.take L) ++ tail.drop L := by
        rw [hA, List.append_assoc, List.take_append_drop]
      have hlen' : (tail.drop L).length < f := by
        rw [List.length_drop]
        omega
      obtain ⟨hjoin, r2, hr2, hr2f⟩ :=
        ih (some (decRepr p.id)) (A ++ tail.take L) (tail.drop L) hA' htail' hlen'
      simp only [feedChainAux, hhm, if_true, hnc]
      constructor
      · simp only [List.map_cons, List.flatten_cons, hjoin, hposts]
        exact List.take_append_drop L tail
      · refine ⟨r2, ?_, hr2f⟩
        rcases hrest : feedChainAux db L f (some (decRepr p.id)) with _ | ⟨x, xs⟩
        · exact absurd hrest (feedChainAux_ne_nil db L f _)
        · rw [hrest] at hr2
          rw [List.getLast?_cons_cons, hr2]

theorem pairwise_and {α : Type} {R S : α → α → Prop} :
    ∀ {l : List α}, l.Pairwise R → l.Pairwise S →
      l.Pairwise (fun a b => R a b ∧ S a b) := by
  intro l
  induction l with
  | nil => intro _ _; exact List.Pairwise.nil
  | cons a l ih =>
    intro hR hS
    rcases List.pairwise_cons.mp hR with ⟨hRa, hRl⟩
    rcases List.pairwise_cons.mp hS with ⟨hSa, hSl⟩
    exact List.pairwise_cons.mpr ⟨fun b hb => ⟨hRa b hb, hSa b hb⟩, ih hRl hSl⟩

/-- C2: with a fixed set of published posts and page size `L`, chaining
`cursor := nextCursor` through `get_feed` enumerates every published post
exactly once, in strictly decreasing id order, and the final page reports
`hasMore = false`; moreover every `get_feed` response has `hasMore` true
exactly when the page is `L` items long, and `nextCursor` is the id of the
last item of the page when `hasMore` and absent otherwise. -/
theorem feed_pagination_complete (db : List FeedPost) (L : Nat) (hL : 1 ≤ L)
    (hids : (db.map FeedPost.id).Nodup) :
    feedChainPosts db L = publishedDesc db ∧
    (feedChainPosts db L).Pairwise (fun a b => b.id < a.id) ∧
    List.Perm (feedChainPosts db L) (publishedPosts db) ∧
    (∃ r, (feedChain db L).getLast? = some r ∧ r.hasMore = false) ∧
    (∀ c s, (get_feed db L c s).hasMore = true ↔
      (get_feed db L c s).posts.length = L) ∧
    (∀ c s, (get_feed db L c s).nextCursor =
      if (get_feed db L c s).hasMore = true
      then ((get_feed db L c s).posts.getLast?).map (fun p => decRepr p.id)
      else none) := by
  have hperm : List.Perm (publishedDesc db) (publishedPosts db) :=
    List.perm_insertionSort _ _
  have hsorted : (publishedDesc db).Sorted feedGE := List.sorted_insertionSort _ _
  have hsub : List.Sublist ((publishedPosts db).map FeedPost.id)
      (db.map FeedPost.id) :=
    (List.filter_sublist _).map _
  have hn1 : ((publishedPosts db).map FeedPost.id).Nodup := hids.sublist hsub
  have hn2 : ((publishedDesc db).map FeedPost.id).Nodup :=
    ((hperm.map FeedPost.id).nodup_iff).mpr hn1
  have hstrict : (publishedDesc db).Pairwise (fun a b => b.id < a.id) := by
    have hne : (publishedDesc db).Pairwise (fun a b => a.id ≠ b.id) :=
      List.pairwise_map.mp hn2
    exact (pairwise_and hsorted hne).imp
      (fun h => Nat.lt_of_le_of_ne h.1 (fun he => h.2 he.symm))
  have hflen : (publishedDesc db).length < db.length + 1 := by
    have h1 : (publishedDesc db).length = (publishedPosts db).length := hperm.length_eq
    have h2 : (publishedPosts db).length ≤ db.length := List.length_filter_le _ _
    omega
  obtain ⟨hjoin, hlast⟩ := feedChainAux_go db L hL hstrict (db.length + 1) none
    [] (publishedDesc db) (by simp) (feedQueryRows_no_cursor db) hflen
  refine ⟨hjoin, ?_, ?_, hlast, ?_, ?_⟩
  · have h3 : feedChainPosts db L = publishedDesc db := hjoin
    rw [h3]
    exact hstrict
  · have h3 : feedChainPosts db L = publishedDesc db := hjoin
    rw [h3]
    exact hperm
  · intro c s
    rw [get_feed_hasMore]
    simp
  · intro c s
    rw [get_feed_nextCursor]
    cases hgl : (get_feed db L c s).posts.getLast? with
    | none =>
      cases hhm : (get_feed db L c s).hasMore <;> simp
    | some p =>
      cases hhm : (get_feed db L c s).hasMore <;> simp [hhm]

/-- Witness for C2 at a concrete database and page size 2. -/
theorem feed_pagination_complete_witness :
    1 ≤ 2 ∧ (feedDbW.map FeedPost.id).Nodup ∧
      (feedChainPosts feedDbW 2 = publishedDesc feedDbW ∧
        (feedChainPosts feedDbW 2).Pairwise (fun a b => b.id < a.id) ∧
        List.Perm (feedChainPosts feedDbW 2) (publishedPosts feedDbW) ∧
        (∃ r, (feedChain feedDbW 2).getLast? = some r ∧ r.hasMore = false) ∧
        (∀ c s, (get_feed feedDbW 2 c s).hasMore = true ↔
          (get_feed feedDbW 2 c s).posts.length = 2) ∧
        (∀ c s, (get_feed feedDbW 2 c s).nextCursor =
          if (get_feed feedDbW 2 c s).hasMore = true
          then ((get_feed feedDbW 2 c s).posts.getLast?).map (fun p => decRepr p.id)
          else none)) :=
  ⟨by decide, by decide, feed_pagination_complete feedDbW 2 (by decide) (by decide)⟩

theorem filter_user_eq_nil {rows : List LikeRow} {ld : LikeCreate}
    (h0 : rows.filter (fun r => r.post_id == ld.post_id) = []) :
    rows.filter (fun r => r.post_id == ld.post_id && r.user_id == ld.user_id) = [] := by
  rw [List.filter_eq_nil_iff] at h0 ⊢
  intro r hr hcontra
  apply h0 r hr
  simp only [Bool.and_eq_true] at hcontra
  exact hcontra.1

theorem toggle_like_insert (d : LikesDB) (ld : LikeCreate) (hu : ld.user_id ≠ 0)
    (h0 : likesForPost d ld.post_id = []) :
    (toggle_like d ld none).1.rows =
        d.rows ++ [⟨d.nextId, ld.post_id, ld.user_id⟩] ∧
      (toggle_like d ld none).2 = Except.ok ⟨true, 1⟩ := by
  have h0r : d.rows.filter (fun r => r.post_id == ld.post_id) = [] := h0
  have hfind := @filter_user_eq_nil d.rows ld h0r
  have hcount : likesForPost
      { rows := d.rows ++ [⟨d.nextId, ld.post_id, ld.user_id⟩],
        nextId := d.nextId + 1 } ld.post_id =
      [⟨d.nextId, ld.post_id, ld.user_id⟩] := by
    unfold likesForPost
    rw [List.filter_append, h0r]
    simp
  constructor
  · simp only [toggle_like, if_pos hu, hfind]
    simp only [scalarOneOrNone]
  · simp only [toggle_like, if_pos hu, hfind]
    simp only [scalarOneOrNone, hcount]
    rfl

theorem toggle_like_delete (d : LikesDB) (ld : LikeCreate) (base : List LikeRow)
    (k : Nat) (hu : ld.user_id ≠ 0)
    (hrows : d.rows = base ++ [⟨k, ld.post_id, ld.user_id⟩])
    (h0 : base.filter (fun r => r.post_id == ld.post_id) = []) :
    (toggle_like d ld none).1.rows = base ∧
      (toggle_like d ld none).2 = Except.ok ⟨false, 0⟩ := by
  have hfind : d.rows.filter
      (fun r => r.post_id == ld.post_id && r.user_id == ld.user_id) =
      ([⟨k, ld.post_id, ld.user_id⟩] : List LikeRow) := by
    rw [hrows, List.filter_append, @filter_user_eq_nil base ld h0]
    simp
  have hnotmem : (⟨k, ld.post_id, ld.user_id⟩ : LikeRow) ∉ base := by
    intro hmem
    have hmem2 : (⟨k, ld.post_id, ld.user_id⟩ : LikeRow) ∈
        base.filter (fun r => r.post_id == ld.post_id) := by
      rw [List.mem_filter]
      exact ⟨hmem, by simp⟩
    rw [h0] at hmem2
    exact absurd hmem2 (List.not_mem_nil _)
  have herase : d.rows.erase (⟨k, ld.post_id, ld.user_id⟩ : LikeRow) = base := by
    rw [hrows, List.erase_append_right _ hnotmem, List.erase_cons_head,
      List.append_nil]
  have hcount : (d.rows.erase (⟨k, ld.post_id, ld.user_id⟩ : LikeRow)).filter
      (fun r => r.post_id == ld.post_id) = [] := by
    rw [herase, h0]
  constructor
  · simp only [toggle_like, if_pos hu, hfind]
    simp only [scalarOneOrNone, herase]
  · simp only [toggle_like, if_pos hu, hfind]
    simp only [scalarOneOrNone, likesForPost, hcount]
    rfl

theorem toggleLikeN_invariant (db : LikesDB) (ld : LikeCreate)
    (hu : ld.user_id ≠ 0) (h0 : likesForPost db ld.post_id = []) :
    ∀ n : Nat,
      (n % 2 = 0 → (toggleLikeN db ld n).rows = db.rows) ∧
      (n % 2 = 1 → ∃ k, (toggleLikeN db ld n).rows =
        db.rows ++ [⟨k, ld.post_id, ld.user_id⟩]) := by
  intro n
  induction n with
  | zero => exact ⟨fun _ => rfl, fun h => by omega⟩
  | succ n ih =>
    rcases Nat.even_or_odd n with he | ho
    · have hn : n % 2 = 0 := Nat.even_iff.mp he
      have hrows := ih.1 hn
      have h0n : likesForPost (toggleLikeN db ld n) ld.post_id = [] := by
        unfold likesForPost
        rw [hrows]
        exact h0
      constructor
      · intro hcontra; omega
      · intro _
        refine ⟨(toggleLikeN db ld n).nextId, ?_⟩
        show (toggle_like (toggleLikeN db ld n) ld none).1.rows = _
        rw [(toggle_like_insert (toggleLikeN db ld n) ld hu h0n).1, hrows]
    · have hn : n % 2 = 1 := Nat.odd_iff.mp ho
      obtain ⟨k, hrows⟩ := ih.2 hn
      constructor
      · intro _
        show (toggle_like (toggleLikeN db ld n) ld none).1.rows = _
        exact (toggle_like_delete (toggleLikeN db ld n) ld db.rows k hu hrows h0).1
      · intro hcontra; omega

/-- C3: starting from a state where the post has no likes, `toggle_like`
alternates: two calls restore the original like rows, the like count after
`n` calls is `n % 2`, and each call reports `liked = true` exactly when it
inserts (with the fresh total count). -/
theorem toggle_like_alternates (db : LikesDB) (ld : LikeCreate)
    (hu : ld.user_id ≠ 0) (h0 : likesForPost db ld.post_id = []) :
    (toggleLikeN db ld 2).rows = db.rows ∧
    (∀ n, (likesForPost (toggleLikeN db ld n) ld.post_id).length = n % 2) ∧
    (∀ n, (toggle_like (toggleLikeN db ld n) ld none).2 =
      Except.ok ⟨decide (n % 2 = 0), (n + 1) % 2⟩) := by
  have h0r : db.rows.filter (fun r => r.post_id == ld.post_id) = [] := h0
  have hinv := toggleLikeN_invariant db ld hu h0
  refine ⟨(hinv 2).1 (by norm_num), ?_, ?_⟩
  · intro n
    rcases Nat.even_or_odd n with he | ho
    · have hn : n % 2 = 0 := Nat.even_iff.mp he
      unfold likesForPost
      rw [(hinv n).1 hn, h0r, hn]
      rfl
    · have hn : n % 2 = 1 := Nat.odd_iff.mp ho
      obtain ⟨k, hrows⟩ := (hinv n).2 hn
      unfold likesForPost
      rw [hrows, List.filter_append, h0r, hn]
      simp
  · intro n
    rcases Nat.even_or_odd n with he | ho
    · have hn : n % 2 = 0 := Nat.even_iff.mp he
      have h0n : likesForPost (toggleLikeN db ld n) ld.post_id = [] := by
        unfold likesForPost
        rw [(hinv n).1 hn]
        exact h0r
      rw [(toggle_like_insert (toggleLikeN db ld n) ld hu h0n).2]
      have h1 : (n + 1) % 2 = 1 := by omega
      simp [hn, h1]
    · have hn : n % 2 = 1 := Nat.odd_iff.mp ho
      obtain ⟨k, hrows⟩ := (hinv n).2 hn
      rw [(toggle_like_delete (toggleLikeN db ld n) ld db.rows k hu hrows h0r).2]
      have h1 : (n + 1) % 2 = 0 := by omega
      simp [hn, h1]

/-- Witness for C3: post 5 and user 2 on an empty likes table. -/
theorem toggle_like_alternates_witness :
    likeCreateW.user_id ≠ 0 ∧ likesForPost likeDbW likeCreateW.post_id = [] ∧
      ((toggleLikeN likeDbW likeCreateW 2).rows = likeDbW.rows ∧
        (∀ n, (likesForPost (toggleLikeN likeDbW likeCreateW n)
          likeCreateW.post_id).length = n % 2) ∧
        (∀ n, (toggle_like (toggleLikeN likeDbW likeCreateW n) likeCreateW none).2 =
          Except.ok ⟨decide (n % 2 = 0), (n + 1) % 2⟩)) :=
  ⟨by decide, by decide,
    toggle_like_alternates likeDbW likeCreateW (by decide) (by decide)⟩

/-- C9: a `POST /posts/like` request whose body carries no `user_id` fails
schema validation; no like row is created or deleted and the table is
unchanged. -/
theorem toggle_post_like_anonymous (db : LikesDB) (raw : RawLikeRequest)
    (ip : Option String) (h : raw.user_id = none) :
    toggle_post_like db raw ip = (db, Except.error PyErr.validationError) := by
  unfold toggle_post_like parseLikeCreate
  rw [h]
  cases raw.post_id <;> cases raw.session_hash <;> rfl

/-- Witness for C9 at a concrete anonymous request body. -/
theorem toggle_post_like_anonymous_witness :
    (⟨some 5, none, some "h"⟩ : RawLikeRequest).user_id = none ∧
      toggle_post_like likeDbW ⟨some 5, none, some "h"⟩ none =
        (likeDbW, Except.error PyErr.validationError) :=
  ⟨rfl, toggle_post_like_anonymous likeDbW ⟨some 5, none, some "h"⟩ none rfl⟩

/-- C6: with a truthy extracted ip, when no view row exists for the identity
key ((post,user) for a truthy user id, else (post,ip)), the first
`record_view` call inserts exactly one row for that key and the second call
with the same arguments changes nothing and reports the same count. -/
theorem record_view_idempotent (db : ViewsDB) (vd : ViewCreate)
    (ip ua : Option String) (hip : pyTruthyStr ip = true)
    (h0 : db.rows.filter (viewKeyPred vd ip) = []) :
    ∃ db1 c,
      record_view db vd ip ua = (db1, Except.ok c) ∧
      db1.rows = db.rows ++ [⟨db.nextId, vd.post_id, vd.user_id, ip, ua⟩] ∧
      (db1.rows.filter (viewKeyPred vd ip)).length = 1 ∧
      record_view db1 vd ip ua = (db1, Except.ok c) := by
  have hkuser : ∀ r, pyTruthyInt vd.user_id = true →
      viewKeyPred vd ip r = (r.post_id == vd.post_id && r.user_id == vd.user_id) := by
    intro r hu
    simp [viewKeyPred, hu]
  have hkip : ∀ r, pyTruthyInt vd.user_id = false →
      viewKeyPred vd ip r = (r.post_id == vd.post_id && r.ip_address == ip) := by
    intro r hu
    simp [viewKeyPred, hu]
  refine ⟨ViewsDB.mk
      (db.rows ++ [ViewRow.mk db.nextId vd.post_id vd.user_id ip ua])
      (db.nextId + 1),
    ViewResult.mk (viewsForPost
      (ViewsDB.mk
        (db.rows ++ [ViewRow.mk db.nextId vd.post_id vd.user_id ip ua])
        (db.nextId + 1)) vd.post_id).length, ?_, rfl, ?_, ?_⟩
  · cases hu : pyTruthyInt vd.user_id with
    | true =>
      have h0u : db.rows.filter
          (fun r => r.post_id == vd.post_id && r.user_id == vd.user_id) = [] :=
        (List.filter_congr (fun x _ => hkuser x hu)).symm.trans h0
      simp only [record_view, hu, if_true, h0u, scalarOneOrNone, hip]
    | false =>
      have h0i : db.rows.filter
          (fun r => r.post_id == vd.post_id && r.ip_address == ip) = [] :=
        (List.filter_congr (fun x _ => hkip x hu)).symm.trans h0
      simp only [record_view, hu, if_false, Bool.false_eq_true, h0i,
        scalarOneOrNone, hip, if_true]
  · have hrow : viewKeyPred vd ip ⟨db.nextId, vd.post_id, vd.user_id, ip, ua⟩ = true := by
      unfold viewKeyPred
      cases hu : pyTruthyInt vd.user_id <;> simp
    rw [List.filter_append, h0]
    simp [hrow]
  · cases hu : pyTruthyInt vd.user_id with
    | true =>
      have h0u : db.rows.filter
          (fun r => r.post_id == vd.post_id && r.user_id == vd.user_id) = [] :=
        (List.filter_congr (fun x _ => hkuser x hu)).symm.trans h0
      have hfind : (db.rows ++
          ([⟨db.nextId, vd.post_id, vd.user_id, ip, ua⟩] : List ViewRow)).filter
          (fun r => r.post_id == vd.post_id && r.user_id == vd.user_id) =
          ([⟨db.nextId, vd.post_id, vd.user_id, ip, ua⟩] : List ViewRow) := by
        rw [List.filter_append, h0u]
        simp
      simp only [record_view, hu, if_true, hfind, scalarOneOrNone]
    | false =>
      have h0i : db.rows.filter
          (fun r => r.post_id == vd.post_id && r.ip_address == ip) = [] :=
        (List.filter_congr (fun x _ => hkip x hu)).symm.trans h0
      have hfind : (db.rows ++
          ([⟨db.nextId, vd.post_id, vd.user_id, ip, ua⟩] : List ViewRow)).filter
          (fun r => r.post_id == vd.post_id && r.ip_address == ip) =
          ([⟨db.nextId, vd.post_id, vd.user_id, ip, ua⟩] : List ViewRow) := by
        rw [List.filter_append, h0i]
        simp
      simp only [record_view, hu, if_false, Bool.false_eq_true, hip, if_true,
        hfind, scalarOneOrNone]

/-- C7 (against the code): every call of `create_comment` raises
`AttributeError` while reading `comment_data.content` and leaves the table
unchanged — no comment is ever inserted, so the "new comments start pending"
contract cannot be exercised; the batch `approve` action, by contrast,
behaves as specified: it sets status `approved` for exactly the rows whose
id is listed, leaves every other row unchanged, and returns the number of
matched rows. -/
theorem create_comment_fails_batch_approve_ok (db : CommentsDB)
    (cd : CommentCreate) (ip ua : Option String) (ids : List Nat) :
    create_comment db cd ip ua = (db, Except.error PyErr.attributeError) ∧
    (batch_approve_comments db ids).1.rows.length = db.rows.length ∧
    (∀ i (h1 : i < db.rows.length)
        (h2 : i < (batch_approve_comments db ids).1.rows.length),
      (batch_approve_comments db ids).1.rows.get ⟨i, h2⟩ =
        (if ids.contains (db.rows.get ⟨i, h1⟩).id
         then { db.rows.get ⟨i, h1⟩ with status := "approved" }
         else db.rows.get ⟨i, h1⟩)) ∧
    (batch_approve_comments db ids).2 =
      (db.rows.filter (fun r => ids.contains r.id)).length := by
  refine ⟨rfl, ?_, ?_, rfl⟩
  · simp [batch_approve_comments, bulk_update_comment_status]
  · intro i h1 h2
    simp only [batch_approve_comments, bulk_update_comment_status,
      List.get_eq_getElem, List.getElem_map]

/-- C8: the spam view is a renamed projection of the comment state space: a
stored status `denied` is reported as `rejected`, a requested spam status
`rejected` is written back as `denied`, and the spam listing with no status
filter returns only comments whose stored status is `spam`. -/
theorem spam_view_projection (db : CommentsDB) (page limit : Nat)
    (order : String) (cid : Nat) (c : CommentRow) (u : Option UserRow) :
    (format_spam_response c u).status =
      (if c.status = "denied" then "rejected" else c.status) ∧
    update_spam_status db cid "rejected" = update_comment_status db cid "denied" ∧
    (∀ r ∈ (get_admin_spam_items db page limit none order).1,
      r.status = "spam") := by
  refine ⟨?_, rfl, ?_⟩
  · cases u <;> rfl
  · intro r hr
    have heq : get_admin_spam_items db page limit none order =
        get_comments_with_pagination db page limit (some "spam") order := rfl
    rw [heq] at hr
    simp only [get_comments_with_pagination] at hr
    have hspam : pyTruthyStr (some "spam") = true := rfl
    rw [hspam, if_pos rfl] at hr
    have h1 : r ∈ (if order == "desc" then
        (db.rows.filter (fun x => x.status == (some "spam" : Option String).getD "")).insertionSort
          commentDescOrder
      else
        (db.rows.filter (fun x => x.status == (some "spam" : Option String).getD "")).insertionSort
          commentAscOrder) :=
      List.mem_of_mem_drop (List.mem_of_mem_take hr)
    have h2 : r ∈ db.rows.filter (fun x => x.status == (some "spam" : Option String).getD "") := by
      by_cases ho : (order == "desc") = true
      · rw [if_pos ho] at h1
        exact (List.mem_insertionSort _).mp h1
      · rw [if_neg ho] at h1
        exact (List.mem_insertionSort _).mp h1
    have h3 := (List.mem_filter.mp h2).2
    simpa using h3

theorem decRepr_length_pos (n : Nat) : 1 ≤ (decRepr n).length := by
  show 1 ≤ ((decDigitsRev (n + 1) n).reverse.asString).length
  have h1 : ((decDigitsRev (n + 1) n).reverse.asString).length =
      (decDigitsRev (n + 1) n).reverse.length := rfl
  rw [h1, List.length_reverse]
  have h2 := decDigitsRev_ne_nil (Nat.lt_succ_self n)
  cases h3 : decDigitsRev (n + 1) n with
  | nil => exact absurd h3 h2
  | cons c rest => simp

theorem candidate_ne_base (base : String) (j : Nat) :
    base ≠ base ++ "-" ++ decRepr j := by
  intro h
  have h1 := congrArg String.length h
  rw [String.length_append, String.length_append] at h1
  have h2 := decRepr_length_pos j
  have h3 : ("-" : String).length = 1 := rfl
  omega

theorem candidate_inj (base : String) {i j : Nat}
    (h : base ++ "-" ++ decRepr i = base ++ "-" ++ decRepr j) : i = j := by
  apply decRepr_inj
  have h2 := congrArg String.data h
  simp only [String.data_append] at h2
  have h3 := List.append_cancel_left h2
  exact congrArg String.mk h3

theorem urlCandidates_length (base : String) :
    ∀ fuel slug counter, (urlCandidates base slug counter fuel).length = fuel := by
  intro fuel
  induction fuel with
  | zero => intro slug counter; rfl
  | succ f ih =>
    intro slug counter
    simp only [urlCandidates, List.length_cons, ih]

theorem urlCandidates_mem_suffix (base : String) :
    ∀ fuel counter c,
      c ∈ urlCandidates base (base ++ "-" ++ decRepr counter) (counter + 1) fuel →
      ∃ j, counter ≤ j ∧ c = base ++ "-" ++ decRepr j := by
  intro fuel
  induction fuel with
  | zero => intro counter c hc; exact absurd hc (List.not_mem_nil c)
  | succ f ih =>
    intro counter c hc
    rcases List.mem_cons.mp hc with rfl | htail
    · exact ⟨counter, Nat.le_refl _, rfl⟩
    · obtain ⟨j, hj1, hj2⟩ := ih (counter + 1) c htail
      exact ⟨j, by omega, hj2⟩

theorem urlCandidates_suffix_nodup (base : String) :
    ∀ fuel counter,
      (urlCandidates base (base ++ "-" ++ decRepr counter) (counter + 1) fuel).Nodup := by
  intro fuel
  induction fuel with
  | zero => intro counter; exact List.nodup_nil
  | succ f ih =>
    intro counter
    refine List.nodup_cons.mpr ⟨?_, ih (counter + 1)⟩
    intro hmem
    obtain ⟨j, hj1, hj2⟩ := urlCandidates_mem_suffix base f (counter + 1) _ hmem
    have : counter = j := candidate_inj base hj2
    omega

theorem urlCandidates_base_nodup (base : String) (fuel : Nat) :
    (urlCandidates base base 1 fuel).Nodup := by
  cases fuel with
  | zero => exact List.nodup_nil
  | succ f =>
    refine List.nodup_cons.mpr ⟨?_, ?_⟩
    · intro hmem
      have h1 : base ++ "-" ++ decRepr 1 = base ++ "-" ++ decRepr (0 + 1) := by
        norm_num
      rw [show (urlCandidates base (base ++ "-" ++ decRepr 1) (1 + 1) f) =
          urlCandidates base (base ++ "-" ++ decRepr 1) (1 + 1) f from rfl] at hmem
      obtain ⟨j, _, hj2⟩ := urlCandidates_mem_suffix base f 1 base hmem
      exact candidate_ne_base base j hj2
    · exact urlCandidates_suffix_nodup base f 1

theorem nodup_subset_length {l taken : List String} (hn : l.Nodup)
    (hs : ∀ c ∈ l, c ∈ taken) : l.length ≤ taken.length := by
  have h1 : l.toFinset.card = l.length := List.toFinset_card_of_nodup hn
  have h2 : l.toFinset ⊆ taken.toFinset := by
    intro x hx
    exact List.mem_toFinset.mpr (hs x (List.mem_toFinset.mp hx))
  have h3 : l.toFinset.card ≤ taken.toFinset.card := Finset.card_le_card h2
  have h4 : taken.toFinset.card ≤ taken.length := taken.toFinset_card_le
  omega

theorem genUrlLoop_none_sub (taken : List String) (base : String) :
    ∀ fuel slug counter, genUrlLoop taken base slug counter fuel = none →
      ∀ c ∈ urlCandidates base slug counter fuel, c ∈ taken := by
  intro fuel
  induction fuel with
  | zero => intro slug counter _ c hc; exact absurd hc (List.not_mem_nil c)
  | succ f ih =>
    intro slug counter hnone c hc
    have hstep : genUrlLoop taken base slug counter (f + 1) =
        if taken.contains slug = true then
          genUrlLoop taken base (base ++ "-" ++ decRepr counter) (counter + 1) f
        else some slug := rfl
    by_cases hcon : taken.contains slug = true
    · rw [hstep, if_pos hcon] at hnone
      rcases List.mem_cons.mp hc with rfl | htail
      · exact List.mem_of_elem_eq_true hcon
      · exact ih _ _ hnone c htail
    · rw [hstep, if_neg hcon] at hnone
      exact absurd hnone (by simp)

theorem genUrlLoop_total (taken : List String) (base : String) :
    ∃ s, genUrlLoop taken base base 1 (taken.length + 1) = some s := by
  cases hres : genUrlLoop taken base base 1 (taken.length + 1) with
  | some s => exact ⟨s, rfl⟩
  | none =>
    exfalso
    have hsub := genUrlLoop_none_sub taken base (taken.length + 1) base 1 hres
    have hlen := urlCandidates_length base (taken.length + 1) base 1
    have hnodup := urlCandidates_base_nodup base (taken.length + 1)
    have := nodup_subset_length hnodup hsub
    omega

theorem genUrlLoop_spec (taken : List String) (base : String) :
    ∀ fuel slug counter s, genUrlLoop taken base slug counter fuel = some s →
      s ∉ taken ∧
      (s = slug ∨ ∃ k, counter ≤ k ∧ s = base ++ "-" ++ decRepr k ∧
        slug ∈ taken ∧
        ∀ j, counter ≤ j → j < k → (base ++ "-" ++ decRepr j) ∈ taken) := by
  intro fuel
  induction fuel with
  | zero => intro slug counter s h; exact absurd h (by simp [genUrlLoop])
  | succ f ih =>
    intro slug counter s h
    have hstep : genUrlLoop taken base slug counter (f + 1) =
        if taken.contains slug = true then
          genUrlLoop taken base (base ++ "-" ++ decRepr counter) (counter + 1) f
        else some slug := rfl
    by_cases hcon : taken.contains slug = true
    · rw [hstep, if_pos hcon] at h
      obtain ⟨hnot, hdisj⟩ := ih _ _ s h
      refine ⟨hnot, Or.inr ?_⟩
      rcases hdisj with rfl | ⟨k, hk1, hk2, hk3, hk4⟩
      · exact ⟨counter, Nat.le_refl _, rfl, List.mem_of_elem_eq_true hcon,
          fun j hj1 hj2 => by omega⟩
      · refine ⟨k, by omega, hk2, List.mem_of_elem_eq_true hcon, ?_⟩
        intro j hj1 hj2
        rcases Nat.eq_or_lt_of_le hj1 with rfl | hlt
        · exact hk3
        · exact hk4 j (by omega) hj2
    · rw [hstep, if_neg hcon] at h
      have hs : s = slug := by
        injection h with h2
        exact h2.symm
      subst hs
      refine ⟨?_, Or.inl rfl⟩
      intro hmem
      exact hcon (List.elem_eq_true_of_mem hmem)

/-- C5: the generated post url is never an existing one: the loop result is
the slugified base (title or explicit custom slug) or the base with the
first free numeric suffix, every earlier suffix (and the base) being taken;
two posts titled "Hello World" get urls `hello-world` and `hello-world-1`. -/
theorem generate_unique_url_unique (taken : List String) (title : String)
    (customSlug : Option String) :
    (∃ s, generate_unique_url taken title customSlug = some s ∧
      s ∉ taken ∧
      (s = urlBase title customSlug ∨
        ∃ k, 1 ≤ k ∧ s = urlBase title customSlug ++ "-" ++ decRepr k ∧
          urlBase title customSlug ∈ taken ∧
          ∀ j, 1 ≤ j → j < k →
            (urlBase title customSlug ++ "-" ++ decRepr j) ∈ taken)) ∧
    generate_unique_url [] "Hello World" none = some "hello-world" ∧
    generate_unique_url ["hello-world"] "Hello World" none =
      some "hello-world-1" := by
  refine ⟨?_, by decide, by decide⟩
  obtain ⟨s, hs⟩ := genUrlLoop_total taken (urlBase title customSlug)
  obtain ⟨hnot, hdisj⟩ := genUrlLoop_spec taken (urlBase title customSlug)
    (taken.length + 1) (urlBase title customSlug) 1 s hs
  exact ⟨s, hs, hnot, hdisj⟩

/-- C1: post creation is atomic.  Starting from a session with no pending
writes, if any exception is raised inside the transactional block — at
category resolution, url generation, post, attribute or tag insertion, or
while persisting any file — or the request fails validation, then the
handler returns an error and the session is exactly the initial one: no
post, attribute, tag or upload row from the request is ever visible. -/
theorem create_admin_post_atomic (db : AdminDB) (req : AdminPostRequest)
    (uid : Nat) (parseISO : String → Option String) (saveFile : Nat → String)
    (guessMime : String → Option String) (fault : Option CreateFault)
    (e : HttpErr)
    (h : (create_admin_post ⟨db, db⟩ req uid parseISO saveFile guessMime fault).2 =
      Except.error e) :
    (create_admin_post ⟨db, db⟩ req uid parseISO saveFile guessMime fault).1 =
      ⟨db, db⟩ := by
  unfold create_admin_post at h ⊢
  cases hv : createValidate req with
  | some err => simp only [hv]
  | none =>
    simp only [hv] at h ⊢
    cases ht : createTry (Session.mk db db).pending req uid parseISO saveFile
        guessMime fault with
    | error e2 => simp only [ht]
    | ok pr =>
      rw [ht] at h
      simp at h

/-- Witness for C1: a fault injected at the attribute insertion (after the
post row was already added to the pending state) yields a 500 and leaves
the database exactly as before. -/
theorem create_admin_post_atomic_witness :
    (create_admin_post ⟨adminDbEmpty, adminDbEmpty⟩ adminReqW 1 (fun _ => none)
        (fun _ => "p") (fun _ => none) (some CreateFault.attrInsert)).2 =
      Except.error HttpErr.internalError ∧
    (create_admin_post ⟨adminDbEmpty, adminDbEmpty⟩ adminReqW 1 (fun _ => none)
        (fun _ => "p") (fun _ => none) (some CreateFault.attrInsert)).1 =
      ⟨adminDbEmpty, adminDbEmpty⟩ :=
  ⟨by decide,
    create_admin_post_atomic adminDbEmpty adminReqW 1 (fun _ => none)
      (fun _ => "p") (fun _ => none) (some CreateFault.attrInsert)
      HttpErr.internalError (by decide)⟩

theorem saveOne_attrs {fault : Option CreateFault} {saveFile : Nat → String}
    {guessMime : String → Option String} {uid pid : Nat} {uptype : String}
    {f : FileObj} {idx : Nat} {db : AdminDB}
    {x : AdminDB × Nat × Option (UploadRow × String)}
    (h : saveOne fault saveFile guessMime uid pid uptype f idx db = Except.ok x) :
    x.1.attrs = db.attrs := by
  unfold saveOne at h
  split at h
  · injection h with h2
    subst h2
    rfl
  · split at h
    · exact absurd h (by simp)
    · injection h with h2
      subst h2
      rfl

theorem saveList_attrs {fault : Option CreateFault} {saveFile : Nat → String}
    {guessMime : String → Option String} {uid pid : Nat} {uptype : String} :
    ∀ {files : List FileObj} {idx : Nat} {db : AdminDB} {acc : List UploadRow}
      {x : AdminDB × Nat × List UploadRow},
      saveList fault saveFile guessMime uid pid uptype files idx db acc =
        Except.ok x → x.1.attrs = db.attrs := by
  intro files
  induction files with
  | nil =>
    intro idx db acc x h
    injection h with h2
    subst h2
    rfl
  | cons f rest ih =>
    intro idx db acc x h
    unfold saveList at h
    cases hso : saveOne fault saveFile guessMime uid pid uptype f idx db with
    | error e =>
      rw [hso] at h
      exact absurd h (by simp)
    | ok y =>
      rcases y with ⟨db1, idx1, r⟩
      rw [hso] at h
      have hattrs : db1.attrs = db.attrs := saveOne_attrs hso
      cases r with
      | none =>
        simp only at h
        rw [ih h, hattrs]
      | some up =>
        rcases up with ⟨u, path⟩
        simp only at h
        rw [ih h, hattrs]

theorem setPostLinkUrl_attrs (db : AdminDB) (pid : Nat) (u : String) :
    (setPostLinkUrl db pid u).attrs = db.attrs := rfl

theorem setPostThumbnail_attrs (db : AdminDB) (pid : Nat) (u : String) :
    (setPostThumbnail db pid u).attrs = db.attrs := rfl

theorem uploadMain_attrs {req : AdminPostRequest} {fault : Option CreateFault}
    {saveFile : Nat → String} {guessMime : String → Option String}
    {uid pid : Nat} {db : AdminDB} {x : AdminDB × Nat × List UploadRow}
    (h : uploadMain req fault saveFile guessMime uid pid db = Except.ok x) :
    x.1.attrs = db.attrs := by
  unfold uploadMain at h
  simp only [] at h
  by_cases h1 : (req.type.getD "" == "photo") = true
  · rw [if_pos h1] at h
    exact saveList_attrs h
  · rw [if_neg h1] at h
    by_cases h2 : (req.type.getD "" == "video") = true
    · rw [if_pos h2] at h
      cases hvf : req.videoFile with
      | none =>
        rw [hvf] at h
        simp only [] at h
        injection h with h5
        subst h5
        rfl
      | some vf =>
        rw [hvf] at h
        simp only [] at h
        cases hso : saveOne fault saveFile guessMime uid pid "video" vf 0 db with
        | error e =>
          rw [hso] at h
          exact absurd h (by simp)
        | ok y =>
          rcases y with ⟨db1, idx1, r⟩
          rw [hso] at h
          have hattrs : db1.attrs = db.attrs := saveOne_attrs hso
          cases r with
          | none =>
            simp only at h
            injection h with h5
            subst h5
            exact hattrs
          | some up =>
            rcases up with ⟨u, path⟩
            simp only at h
            injection h with h5
            subst h5
            exact hattrs
    · rw [if_neg h2] at h
      by_cases h3 : (req.type.getD "" == "audio") = true
      · rw [if_pos h3] at h
        cases haf : req.audioFile with
        | none =>
          rw [haf] at h
          simp only [] at h
          injection h with h5
          subst h5
          rfl
        | some af =>
          rw [haf] at h
          simp only [] at h
          cases hso : saveOne fault saveFile guessMime uid pid "audio" af 0 db with
          | error e =>
            rw [hso] at h
            exact absurd h (by simp)
          | ok y =>
            rcases y with ⟨db1, idx1, r⟩
            rw [hso] at h
            have hattrs : db1.attrs = db.attrs := saveOne_attrs hso
            cases r with
            | none =>
              simp only at h
              injection h with h5
              subst h5
              exact hattrs
            | some up =>
              rcases up with ⟨u, path⟩
              simp only at h
              injection h with h5
              subst h5
              exact hattrs
      · rw [if_neg h3] at h
        by_cases h4 : (req.type.getD "" == "file") = true
        · rw [if_pos h4] at h
          exact saveList_attrs h
        · rw [if_neg h4] at h
          injection h with h5
          subst h5
          rfl

theorem uploadPoster_attrs {req : AdminPostRequest} {fault : Option CreateFault}
    {saveFile : Nat → String} {guessMime : String → Option String}
    {uid pid : Nat} {db : AdminDB} {idx : Nat} {ups : List UploadRow}
    {x : AdminDB × Nat × List UploadRow}
    (h : uploadPoster req fault saveFile guessMime uid pid db idx ups =
      Except.ok x) : x.1.attrs = db.attrs := by
  unfold uploadPoster at h
  cases hpf : req.posterImage with
  | none =>
    rw [hpf] at h
    simp only [] at h
    injection h with h2
    subst h2
    rfl
  | some pf =>
    rw [hpf] at h
    simp only [] at h
    cases hso : saveOne fault saveFile guessMime uid pid "image" pf idx db with
    | error e =>
      rw [hso] at h
      exact absurd h (by simp)
    | ok y =>
      rcases y with ⟨db2, idx2, r⟩
      rw [hso] at h
      have hattrs : db2.attrs = db.attrs := saveOne_attrs hso
      cases r with
      | none =>
        simp only at h
        injection h with h2
        subst h2
        exact hattrs
      | some up =>
        rcases up with ⟨u, path⟩
        simp only at h
        injection h with h2
        subst h2
        exact hattrs

theorem uploadCaption_attrs {req : AdminPostRequest} {fault : Option CreateFault}
    {saveFile : Nat → String} {guessMime : String → Option String}
    {uid pid : Nat} {db : AdminDB} {idx : Nat} {ups : List UploadRow}
    {x : AdminDB × Nat × List UploadRow}
    (h : uploadCaption req fault saveFile guessMime uid pid db idx ups =
      Except.ok x) : x.1.attrs = db.attrs := by
  unfold uploadCaption at h
  cases hcf : req.captionFile with
  | none =>
    rw [hcf] at h
    simp only [] at h
    injection h with h2
    subst h2
    rfl
  | some cf =>
    rw [hcf] at h
    simp only [] at h
    cases hso : saveOne fault saveFile guessMime uid pid "caption" cf idx db with
    | error e =>
      rw [hso] at h
      exact absurd h (by simp)
    | ok y =>
      rcases y with ⟨db3, idx3, r⟩
      rw [hso] at h
      have hattrs : db3.attrs = db.attrs := saveOne_attrs hso
      cases r with
      | none =>
        simp only at h
        injection h with h2
        subst h2
        exact hattrs
      | some up =>
        rcases up with ⟨u, path⟩
        simp only at h
        injection h with h2
        subst h2
        exact hattrs

theorem processUploads_attrs {req : AdminPostRequest} {fault : Option CreateFault}
    {saveFile : Nat → String} {guessMime : String → Option String}
    {uid pid : Nat} {db : AdminDB} {x : AdminDB × List UploadRow}
    (h : processUploads req fault saveFile guessMime uid pid db = Except.ok x) :
    x.1.attrs = db.attrs := by
  unfold processUploads at h
  cases h1 : uploadMain req fault saveFile guessMime uid pid db with
  | error e => rw [h1] at h; exact absurd h (by simp)
  | ok y1 =>
    rcases y1 with ⟨db1, idx1, ups1⟩
    rw [h1] at h
    simp only [] at h
    cases h2 : uploadPoster req fault saveFile guessMime uid pid db1 idx1 ups1 with
    | error e => rw [h2] at h; exact absurd h (by simp)
    | ok y2 =>
      rcases y2 with ⟨db2, idx2, ups2⟩
      rw [h2] at h
      simp only [] at h
      cases h3 : uploadCaption req fault saveFile guessMime uid pid db2 idx2 ups2 with
      | error e => rw [h3] at h; exact absurd h (by simp)
      | ok y3 =>
        rcases y3 with ⟨db3, idx3, ups3⟩
        rw [h3] at h
        simp only [] at h
        cases h4 : saveList fault saveFile guessMime uid pid "caption"
            req.captionFiles idx3 db3 ups3 with
        | error e => rw [h4] at h; exact absurd h (by simp)
        | ok y4 =>
          rcases y4 with ⟨db4, idx4, ups4⟩
          rw [h4] at h
          simp only [] at h
          injection h with h5
          subst h5
          calc (db4, ups4).1.attrs = db3.attrs := saveList_attrs h4
            _ = db2.attrs := uploadCaption_attrs h3
            _ = db1.attrs := uploadPoster_attrs h2
            _ = db.attrs := uploadMain_attrs h1

theorem handle_tags_attrs (pid : Nat) (uid : Nat) :
    ∀ (names : List String) (db : AdminDB),
      (handle_tags pid names uid db).attrs = db.attrs := by
  intro names
  induction names with
  | nil => intro db; rfl
  | cons n ns ih =>
    intro db
    show (List.foldl _ db (n :: ns)).attrs = db.attrs
    rw [List.foldl_cons]
    have hstep := ih (if pyStrip n == "" then db
      else
        { db with
          tags := db.tags ++ [⟨db.nextTagId, pid, uid, pyStrip n⟩],
          nextTagId := db.nextTagId + 1 })
    unfold handle_tags at hstep
    rw [hstep]
    by_cases hn : pyStrip n == "" <;> simp [hn]

theorem applyTags_attrs (req : AdminPostRequest) (pid uid : Nat) (db : AdminDB) :
    (applyTags req pid uid db).attrs = db.attrs := by
  unfold applyTags
  cases req.tags with
  | none => rfl
  | some tl =>
    by_cases hl : tl.isEmpty <;> simp [hl, handle_tags_attrs]

theorem maybeUploads_attrs {req : AdminPostRequest} {fault : Option CreateFault}
    {saveFile : Nat → String} {guessMime : String → Option String}
    {uid pid : Nat} {db : AdminDB} {x : AdminDB × List UploadRow}
    (h : maybeUploads req fault saveFile guessMime uid pid db = Except.ok x) :
    x.1.attrs = db.attrs := by
  unfold maybeUploads at h
  by_cases hm : req.isMultipart = true
  · rw [if_pos hm] at h
    exact processUploads_attrs h
  · rw [if_neg hm] at h
    injection h with h2
    subst h2
    rfl

theorem createTry_ok_status {p0 : AdminDB} {req : AdminPostRequest} {uid : Nat}
    {parseISO : String → Option String} {saveFile : Nat → String}
    {guessMime : String → Option String} {fault : Option CreateFault}
    {p : AdminDB} {resp : CreateResponse}
    (h : createTry p0 req uid parseISO saveFile guessMime fault =
      Except.ok (p, resp)) :
    resp.status = req.status.getD "draft" ∧
    ∃ a, a ∈ p.attrs ∧ a.post_id = resp.id ∧
      a.status = req.status.getD "draft" := by
  unfold createTry at h
  by_cases hf1 : (fault == some CreateFault.categoryStep) = true
  · rw [if_pos hf1] at h
    exact absurd h (by simp)
  · rw [if_neg hf1] at h
    cases hhc : handle_category req.category uid p0 with
    | mk categoryId p1 =>
      rw [hhc] at h
      simp only [] at h
      by_cases hf2 : (fault == some CreateFault.urlStep) = true
      · rw [if_pos hf2] at h
        exact absurd h (by simp)
      · rw [if_neg hf2] at h
        by_cases hf3 : (fault == some CreateFault.postInsert) = true
        · rw [if_pos hf3] at h
          exact absurd h (by simp)
        · rw [if_neg hf3] at h
          by_cases hf4 : (fault == some CreateFault.attrInsert) = true
          · rw [if_pos hf4] at h
            exact absurd h (by simp)
          · rw [if_neg hf4] at h
            by_cases hf5 : (fault == some CreateFault.tagStep) = true
            · rw [if_pos hf5] at h
              exact absurd h (by simp)
            · rw [if_neg hf5] at h
              split at h
              · exact absurd h (by simp)
              · rename_i p5 ups heq
                injection h with h6
                injection h6 with h7 h8
                subst h7
                subst h8
                constructor
                · rfl
                · have h10 := maybeUploads_attrs heq
                  rw [applyTags_attrs] at h10
                  simp only [] at h10
                  rw [h10]
                  exact ⟨_, List.mem_append_right _ (List.mem_singleton_self _),
                    rfl, rfl⟩

theorem crud_create_post_status (d : AdminDB) (p : PostCreateIn) (u2 : Nat) :
    ((crud_create_post d p u2).1.attrs.map AttrRow.status).getLast? =
      some (pyOrStrOpt p.status "published") := by
  unfold crud_create_post
  simp only []
  have hfold : ∀ (tl : List String) (d0 : AdminDB) (pid : Nat),
      (tl.foldl
        (fun d tn =>
          { d with
            tags := d.tags ++ [⟨d.nextTagId, pid, u2, tn⟩],
            nextTagId := d.nextTagId + 1 })
        d0).attrs = d0.attrs := by
    intro tl
    induction tl with
    | nil => intro d0 pid; rfl
    | cons t ts ih =>
      intro d0 pid
      rw [List.foldl_cons]
      rw [ih]
  cases ht : p.tag_names with
  | none =>
    simp only []
    rw [List.map_append]
    simp
  | some tl =>
    simp only []
    by_cases hl : tl.isEmpty
    · rw [if_pos hl, List.map_append]
      simp
    · rw [if_neg hl, hfold, List.map_append]
      simp

/-- C4 (amended): the admin create path stores and reports status
`post_data.get("status", "draft")` — `"draft"` when the request carries no
status, the caller-supplied status otherwise — while the legacy crud
`create_post` stores `post.status or "published"`. -/
theorem admin_create_status_default (db : AdminDB) (req : AdminPostRequest)
    (uid : Nat) (parseISO : String → Option String) (saveFile : Nat → String)
    (guessMime : String → Option String) (fault : Option CreateFault)
    (resp : CreateResponse)
    (h : (create_admin_post ⟨db, db⟩ req uid parseISO saveFile guessMime fault).2 =
      Except.ok resp) :
    resp.status = req.status.getD "draft" ∧
    (∃ a, a ∈ (create_admin_post ⟨db, db⟩ req uid parseISO saveFile guessMime
        fault).1.committed.attrs ∧
      a.post_id = resp.id ∧ a.status = req.status.getD "draft") ∧
    (∀ d p u2, ((crud_create_post d p u2).1.attrs.map AttrRow.status).getLast? =
      some (pyOrStrOpt p.status "published")) := by
  unfold create_admin_post at h ⊢
  cases hv : createValidate req with
  | some err =>
    rw [hv] at h
    exact absurd h (by simp)
  | none =>
    rw [hv] at h
    simp only [] at h ⊢
    cases ht : createTry (Session.mk db db).pending req uid parseISO saveFile
        guessMime fault with
    | error e2 =>
      rw [ht] at h
      exact absurd h (by simp)
    | ok pr =>
      rcases pr with ⟨p, resp0⟩
      rw [ht] at h
      simp only [] at h
      injection h with h2
      subst h2
      obtain ⟨hstatus, a, hmem, hpid, hastatus⟩ := createTry_ok_status ht
      exact ⟨hstatus, ⟨a, hmem, hpid, hastatus⟩, crud_create_post_status⟩

/-- C4 counterexample: a `create_post` request that does not specify a
status stores `"published"`, not `"draft"`, on the PostAttribute row. -/
theorem create_post_status_counterexample :
    ((crud_create_post adminDbEmpty postInNoStatus 1).1.attrs.map
      AttrRow.status) = ["published"] ∧ ("published" : String) ≠ "draft" :=
  ⟨by decide, by decide⟩

/-- Witness for the amended C4 at the concrete text-post request. -/
theorem admin_create_status_default_witness :
    (create_admin_post ⟨adminDbEmpty, adminDbEmpty⟩ adminReqW 1 (fun _ => none)
        (fun _ => "p") (fun _ => none) none).2 =
      Except.ok ⟨1, "Hello World", "text", "hello-world", "draft",
        "hello-world", false, none, [], []⟩ ∧
    ((⟨1, "Hello World", "text", "hello-world", "draft", "hello-world",
        false, none, [], []⟩ : CreateResponse).status =
        adminReqW.status.getD "draft" ∧
      (∃ a, a ∈ (create_admin_post ⟨adminDbEmpty, adminDbEmpty⟩ adminReqW 1
          (fun _ => none) (fun _ => "p") (fun _ => none) none).1.committed.attrs ∧
        a.post_id = (⟨1, "Hello World", "text", "hello-world", "draft",
          "hello-world", false, none, [], []⟩ : CreateResponse).id ∧
        a.status = adminReqW.status.getD "draft") ∧
      (∀ d p u2, ((crud_create_post d p u2).1.attrs.map AttrRow.status).getLast? =
        some (pyOrStrOpt p.status "published"))) :=
  ⟨by decide,
    admin_create_status_default adminDbEmpty adminReqW 1 (fun _ => none)
      (fun _ => "p") (fun _ => none) none
      ⟨1, "Hello World", "text", "hello-world", "draft", "hello-world",
        false, none, [], []⟩ (by decide)⟩

/-- Witness for C6: anonymous view on post 7 from a concrete ip. -/
theorem record_view_idempotent_witness :
    pyTruthyStr (some "1.2.3.4") = true ∧
      (⟨[], 1⟩ : ViewsDB).rows.filter
        (viewKeyPred ⟨7, some 0⟩ (some "1.2.3.4")) = [] ∧
      (∃ db1 c,
        record_view ⟨[], 1⟩ ⟨7, some 0⟩ (some "1.2.3.4") none =
          (db1, Except.ok c) ∧
        db1.rows = (⟨[], 1⟩ : ViewsDB).rows ++
          [⟨(⟨[], 1⟩ : ViewsDB).nextId, (⟨7, some 0⟩ : ViewCreate).post_id,
            (⟨7, some 0⟩ : ViewCreate).user_id, some "1.2.3.4", none⟩] ∧
        (db1.rows.filter (viewKeyPred ⟨7, some 0⟩ (some "1.2.3.4"))).length = 1 ∧
        record_view db1 ⟨7, some 0⟩ (some "1.2.3.4") none = (db1, Except.ok c)) :=
  ⟨by decide, by decide,
    record_view_idempotent ⟨[], 1⟩ ⟨7, some 0⟩ (some "1.2.3.4") none
      (by decide) (by decide)⟩

end Server
